import Mathlib

/-!
Verification of the MCP Level 1 artifact validation engine
(`level1/validation/extended-validator.py` and `level1/tools/validator.py`).

The Python code operates on documents produced by `yaml.safe_load`.  We model
such parsed documents with the inductive type `Val` below (mappings are
association lists with string keys, which covers every key the validators
ever look up; YAML floats and non-string mapping keys are not exercised by
any validator code path modelled here).  Fallible Python operations are
modelled in the `Except PyErr` monad: an uncaught Python exception is an
`Except.error`.  Wall-clock timing (`validation_time_seconds`) and live HTTP
endpoint probing are outside the model; endpoint validation is modelled in
its default disabled state (`validate_endpoints=False`), and the basic
validator is modelled without an external JSON schema (`schema_path=None`),
matching every scenario the claims mention.
-/

namespace KeystonVal

/-- A parsed YAML/JSON document node (result of `yaml.safe_load`). -/
inductive Val where
  | null
  | bool (b : Bool)
  | int (n : Int)
  | str (s : String)
  | list (xs : List Val)
  | map (kvs : List (String × Val))
deriving Repr

/-- A raised Python exception, carrying `str(e)`. -/
inductive PyErr where
  | typeError (msg : String)
  | keyError (msg : String)
  | attributeError (msg : String)
deriving DecidableEq, Repr

/-- A single quote character (kept out of string literals). -/
def sq : String := String.singleton (Char.ofNat 39)

/-- Python type name of a value, as used in CPython error messages. -/
def typeName : Val → String
  | .null => "NoneType"
  | .bool _ => "bool"
  | .int _ => "int"
  | .str _ => "str"
  | .list _ => "list"
  | .map _ => "dict"

/-- `str(e)` for a modelled exception. -/
def pyErrStr : PyErr → String
  | .typeError m => m
  | .keyError m => m
  | .attributeError m => m

mutual

/-- Python `repr` of a value (quotes strings, renders containers). -/
def pyRepr : Val → String
  | .null => "None"
  | .bool b => if b then "True" else "False"
  | .int n => toString n
  | .str s => sq ++ s ++ sq
  | .list xs => "[" ++ pyReprList xs ++ "]"
  | .map kvs => "\x7b" ++ pyReprMap kvs ++ "\x7d"

/-- Comma-separated `repr` of list elements. -/
def pyReprList : List Val → String
  | [] => ""
  | [x] => pyRepr x
  | x :: y :: xs => pyRepr x ++ ", " ++ pyReprList (y :: xs)

/-- Comma-separated `repr` of mapping items. -/
def pyReprMap : List (String × Val) → String
  | [] => ""
  | [(k, v)] => sq ++ k ++ sq ++ ": " ++ pyRepr v
  | (k, v) :: y :: xs => sq ++ k ++ sq ++ ": " ++ pyRepr v ++ ", " ++ pyReprMap (y :: xs)

end

/-- Python `str()` of a value, as used by f-string interpolation. -/
def pyStr : Val → String
  | .str s => s
  | v => pyRepr v

/-- Substring test on character lists (Python `needle in haystack` for `str`). -/
def hasSubList (needle : List Char) : List Char → Bool
  | [] => needle.isEmpty
  | c :: cs => needle.isPrefixOf (c :: cs) || hasSubList needle cs

/-- Python `needle in haystack` for strings. -/
def hasSubstr (needle hay : String) : Bool :=
  hasSubList needle.data hay.data

/-- Python `v == s` for a string literal `s` (a non-string value never equals
a string). -/
def pyEqStr (v : Val) (s : String) : Bool :=
  match v with
  | .str t => t == s
  | _ => false

/-- Python `v != s` for a string literal `s`. -/
def pyNeStr (v : Val) (s : String) : Bool := !pyEqStr v s

/-- Python membership `key in v` where `key` is a string literal from the
source.  Mappings test keys, lists test elements, strings test substrings;
other types raise `TypeError`. -/
def pyIn (key : String) : Val → Except PyErr Bool
  | .map kvs => .ok (kvs.any fun kv => kv.1 == key)
  | .list xs => .ok (xs.any fun x => pyEqStr x key)
  | .str s => .ok (hasSubstr key s)
  | v => .error (.typeError s!"argument of type {sq}{typeName v}{sq} is not iterable")

/-- Python `key not in v`. -/
def pyNotIn (key : String) (v : Val) : Except PyErr Bool :=
  (pyIn key v).map (fun b => !b)

/-- Python subscription `v[key]` with a string key. -/
def pySubscript (v : Val) (key : String) : Except PyErr Val :=
  match v with
  | .map kvs =>
      match kvs.lookup key with
      | some x => .ok x
      | none => .error (.keyError (sq ++ key ++ sq))
  | .str _ => .error (.typeError "string indices must be integers")
  | .list _ => .error (.typeError "list indices must be integers or slices, not str")
  | v => .error (.typeError s!"{sq}{typeName v}{sq} object is not subscriptable")

/-- Python `v.get(key, default)`: only mappings have `.get`. -/
def valGet (v : Val) (key : String) (dflt : Val) : Except PyErr Val :=
  match v with
  | .map kvs => .ok ((kvs.lookup key).getD dflt)
  | v => .error (.attributeError s!"{sq}{typeName v}{sq} object has no attribute {sq}get{sq}")

/-- Python `len(v)`. -/
def pyLen (v : Val) : Except PyErr Nat :=
  match v with
  | .str s => .ok s.length
  | .list xs => .ok xs.length
  | .map kvs => .ok kvs.length
  | v => .error (.typeError s!"object of type {sq}{typeName v}{sq} has no len()")

/-- Python iteration `for x in v`: lists yield elements, strings yield
one-character strings, mappings yield their keys; other types raise. -/
def pyIterate (v : Val) : Except PyErr (List Val) :=
  match v with
  | .list xs => .ok xs
  | .str s => .ok (s.data.map fun c => .str (String.singleton c))
  | .map kvs => .ok (kvs.map fun kv => .str kv.1)
  | v => .error (.typeError s!"{sq}{typeName v}{sq} object is not iterable")

/-- Hashable check: `list` and `dict` values are unhashable in Python. -/
def hashable : Val → Bool
  | .list _ => false
  | .map _ => false
  | _ => true

/-- Python membership of an arbitrary value among string mapping keys
(`x in some_dict`): unhashable values raise, non-strings match no string
key, strings match by equality. -/
def pyInStrKeys (v : Val) (keys : List String) : Except PyErr Bool :=
  if hashable v then
    match v with
    | .str s => .ok (keys.any fun k => k == s)
    | _ => .ok false
  else .error (.typeError s!"unhashable type: {sq}{typeName v}{sq}")

/-! ### Regular-expression matchers

Each regular expression used by the validators is compiled by hand into an
equivalent deterministic character-list acceptor.  `re.match` with a pattern
anchored by `^...$` is a full-string match; `\d`, `[a-z]` etc. are modelled
over ASCII (the validators only feed artifact names, namespaces, versions
and references to them). -/

/-- Character class `[a-z0-9]`. -/
def lowAlnum (c : Char) : Bool := c.isLower || c.isDigit

/-- Character class `[a-z0-9.-]`. -/
def nsChar (c : Char) : Bool := c.isLower || c.isDigit || c == '.' || c == '-'

/-- Character class `[a-z0-9-]`. -/
def nameChar (c : Char) : Bool := c.isLower || c.isDigit || c == '-'

/-- Character class `[a-zA-Z0-9-]`. -/
def suffixChar (c : Char) : Bool := c.isLower || c.isUpper || c.isDigit || c == '-'

/-- The non-ASCII runs of the Unicode `Nd` (decimal digit) category, as
codepoint ranges, taken from the Unicode database CPython ships (checked
against `unicodedata.category` and `re.match` of `\d` on CPython 3.11):
Python's `re` matches `\d` against every Unicode decimal digit, not just
`0-9`. -/
def pyDigitRanges : List (Nat × Nat) :=
  [(1632, 1641), (1776, 1785), (1984, 1993), (2406, 2415),
   (2534, 2543), (2662, 2671), (2790, 2799), (2918, 2927), (3046, 3055),
   (3174, 3183), (3302, 3311), (3430, 3439), (3558, 3567), (3664, 3673),
   (3792, 3801), (3872, 3881), (4160, 4169), (4240, 4249), (6112, 6121),
   (6160, 6169), (6470, 6479), (6608, 6617), (6784, 6793), (6800, 6809),
   (6992, 7001), (7088, 7097), (7232, 7241), (7248, 7257), (42528, 42537),
   (43216, 43225), (43264, 43273), (43472, 43481), (43504, 43513),
   (43600, 43609), (44016, 44025), (65296, 65305), (66720, 66729),
   (68912, 68921), (69734, 69743), (69872, 69881), (69942, 69951),
   (70096, 70105), (70384, 70393), (70736, 70745), (70864, 70873),
   (71248, 71257), (71360, 71369), (71472, 71481), (71904, 71913),
   (72016, 72025), (72784, 72793), (73040, 73049), (73120, 73129),
   (92768, 92777), (92864, 92873), (93008, 93017), (120782, 120831),
   (123200, 123209), (123632, 123641), (125264, 125273), (130032, 130041)]

/-- Python `\d`: an ASCII digit or any other Unicode decimal digit. -/
def pyDigit (c : Char) : Bool :=
  c.isDigit || pyDigitRanges.any fun r => Nat.ble r.1 c.toNat && Nat.ble c.toNat r.2

/-- Python `$` in a non-MULTILINE pattern asserts at the end of the string
or just before one newline at the end of the string.  None of the character
classes of the modelled patterns matches a newline, so `re.match` of an
anchored pattern `BODY$` accepts exactly the strings whose body — after
stripping at most one trailing newline — matches `BODY`. -/
def dropTrailingNl : List Char → List Char
  | [] => []
  | [c] => if c == '\n' then [] else [c]
  | c :: c2 :: cs => c :: dropTrailingNl (c2 :: cs)

/-- Acceptor for a regular-expression segment `[cl]+` running to the end
of the input; `seen` records whether at least one class character has been
consumed. -/
def plusEnd (cl : Char → Bool) : List Char → Bool → Bool
  | [], seen => seen
  | c :: cs, _ => if cl c then plusEnd cl cs true else false

/-- Acceptor for a regular-expression segment `[cl]+ sep` followed by a
continuation acceptor `k` on the rest of the input (callers instantiate it
only with separators outside the class, so the automaton is
deterministic). -/
def plusThen (cl : Char → Bool) (sep : Char) (k : List Char → Bool) :
    List Char → Bool → Bool
  | [], _ => false
  | c :: cs, seen =>
    if cl c then plusThen cl sep k cs true
    else if c == sep && seen then k cs
    else false

/-- `\d+\.\d+\.\d+` over a character list (three dot-separated runs of
Unicode decimal digits). -/
def semverList (cs : List Char) : Bool :=
  plusThen pyDigit '.'
    (fun r2 => plusThen pyDigit '.' (fun r3 => plusEnd pyDigit r3 false) r2 false)
    cs false

/-- `^\d+\.\d+\.\d+$` (exact semantic version, Python `re.match`
semantics for `$` and `\d`). -/
def matchSemver (s : String) : Bool := semverList (dropTrailingNl s.data)

/-- `^\d+\.\d+\.\d+-[a-zA-Z0-9-]+$` (prerelease version): the third
digit run is followed by a literal `-` and a non-empty suffix. -/
def matchPrerelease (s : String) : Bool :=
  plusThen pyDigit '.'
    (fun r2 => plusThen pyDigit '.'
      (fun r3 => plusThen pyDigit '-' (fun r4 => plusEnd suffixChar r4 false) r3 false)
      r2 false)
    (dropTrailingNl s.data) false

/-- `^\d+\.\d+\.\d+\+[a-zA-Z0-9-]+$` (build-metadata version). -/
def matchBuild (s : String) : Bool :=
  plusThen pyDigit '.'
    (fun r2 => plusThen pyDigit '.'
      (fun r3 => plusThen pyDigit '+' (fun r4 => plusEnd suffixChar r4 false) r3 false)
      r2 false)
    (dropTrailingNl s.data) false

/-- `[a-z0-9.-]+/[a-z0-9-]+` over a character list. -/
def refPlainList (cs : List Char) : Bool :=
  plusThen nsChar '/' (fun post => plusEnd nameChar post false) cs false

/-- `^[a-z0-9.-]+/[a-z0-9-]+$` (reference without version; Python `$`
accepts one trailing newline). -/
def matchRefPlain (s : String) : Bool := refPlainList (dropTrailingNl s.data)

/-- `[a-z0-9.-]+/[a-z0-9-]+:\d+\.\d+\.\d+` over a character list. -/
def refVersionList (cs : List Char) : Bool :=
  plusThen nsChar '/'
    (fun post => plusThen nameChar ':' (fun v => semverList v) post false) cs false

/-- `^[a-z0-9.-]+/[a-z0-9-]+:\d+\.\d+\.\d+$` (reference with version;
Python `$` and `\d` semantics). -/
def matchRefVersion (s : String) : Bool := refVersionList (dropTrailingNl s.data)

/-- `ReferenceValidator._is_valid_reference_format`: the reference must match
one of the two anchored patterns. -/
def isValidReferenceFormat (s : String) : Bool :=
  matchRefPlain s || matchRefVersion s

/-- `DependencyValidator._is_valid_version_constraint`: exact, caret, tilde,
`>=` or `<=` constraint over an exact three-part version (each pattern
anchored by `^...$`, so one trailing newline is tolerated). -/
def isValidVersionConstraint (s : String) : Bool :=
  let body := dropTrailingNl s.data
  matchSemver s ||
  (match body with
   | '^' :: rest => semverList rest
   | _ => false) ||
  (match body with
   | '~' :: rest => semverList rest
   | _ => false) ||
  (match body with
   | '>' :: '=' :: rest => semverList rest
   | _ => false) ||
  (match body with
   | '<' :: '=' :: rest => semverList rest
   | _ => false)

/-- Acceptor for `[a-z0-9]+([.-][a-z0-9]+)*` to end of input: runs of
lowercase alphanumerics separated by single `.` or `-`; `inRun` tells
whether the previous character was alphanumeric. -/
def dnsTail : List Char → Bool → Bool
  | [], inRun => inRun
  | c :: cs, inRun =>
    if lowAlnum c then dnsTail cs true
    else if (c == '.' || c == '-') && inRun then dnsTail cs false
    else false

/-- `^io\.github\.[a-z0-9]+([.-][a-z0-9]+)*$`: the literal prefix
`io.github.` followed by the dotted-name tail (Python `$` accepts one
trailing newline). -/
def matchNsGithub (s : String) : Bool :=
  match dropTrailingNl s.data with
  | 'i' :: 'o' :: '.' :: 'g' :: 'i' :: 't' :: 'h' :: 'u' :: 'b' :: '.' :: rest =>
    dnsTail rest false
  | _ => false

/-- `^com\.[a-z0-9]+([.-][a-z0-9]+)*$`. -/
def matchNsCom (s : String) : Bool :=
  match dropTrailingNl s.data with
  | 'c' :: 'o' :: 'm' :: '.' :: rest => dnsTail rest false
  | _ => false

/-- `^org\.[a-z0-9]+([.-][a-z0-9]+)*$`. -/
def matchNsOrg (s : String) : Bool :=
  match dropTrailingNl s.data with
  | 'o' :: 'r' :: 'g' :: '.' :: rest => dnsTail rest false
  | _ => false

/-- `^[a-z0-9.-]+/[a-z0-9-]+$` as used by the BASIC validator for
`metadata.name` (`MCPValidator._validate_naming`): same pattern as a plain
reference. -/
def matchBasicName (s : String) : Bool := matchRefPlain s

/-- `^[a-z0-9-]+$` (the `artifact_patterns` `format` entry of the extended
naming rules). -/
def matchExtArtifactName (s : String) : Bool :=
  plusEnd nameChar (dropTrailingNl s.data) false

/-! ### Dependency graph (networkx `DiGraph`) -/

/-- Equality of hashable node values (all graph nodes are hashable scalars;
the Python coincidence `True == 1` is not exercised by any modelled path). -/
def scalarEq : Val → Val → Bool
  | .null, .null => true
  | .bool a, .bool b => a == b
  | .int a, .int b => a == b
  | .str a, .str b => a == b
  | _, _ => false

/-- Directed graph with insertion-ordered node and edge lists. -/
structure Graph where
  nodes : List Val
  edges : List (Val × Val)
deriving Repr

/-- The empty graph (`nx.DiGraph()`), the state of a fresh validator. -/
def emptyGraph : Graph := ⟨[], []⟩

/-- Node membership. -/
def nodeMem (v : Val) (ns : List Val) : Bool := ns.any (scalarEq v)

/-- Edge membership. -/
def edgeMem (e : Val × Val) (es : List (Val × Val)) : Bool :=
  es.any fun d => scalarEq e.1 d.1 && scalarEq e.2 d.2

/-- `G.add_node(v)`: idempotent; unhashable nodes raise `TypeError`. -/
def addNode (g : Graph) (v : Val) : Except PyErr Graph :=
  if hashable v then
    .ok (if nodeMem v g.nodes then g else { g with nodes := g.nodes ++ [v] })
  else .error (.typeError s!"unhashable type: {sq}{typeName v}{sq}")

/-- `G.add_edge(u, v)`: adds missing endpoint nodes then the edge.  As in
networkx, `u` is inserted before `v` is hashed, so an unhashable `v` leaves
`u` behind (partial mutation). -/
def addEdge (g : Graph) (u v : Val) : (Except PyErr Unit) × Graph :=
  if hashable u then
    let g1 := if nodeMem u g.nodes then g else { g with nodes := g.nodes ++ [u] }
    if hashable v then
      let g2 := if nodeMem v g1.nodes then g1 else { g1 with nodes := g1.nodes ++ [v] }
      let g3 := if edgeMem (u, v) g2.edges then g2 else { g2 with edges := g2.edges ++ [(u, v)] }
      (.ok (), g3)
    else (.error (.typeError s!"unhashable type: {sq}{typeName v}{sq}"), g1)
  else (.error (.typeError s!"unhashable type: {sq}{typeName u}{sq}"), g)

/-- The `find_cycles` attribute of the networkx module, looked up by
`DependencyValidator.validate_dependencies` (line 112).  networkx exposes
`find_cycle` and `simple_cycles`, but no attribute named `find_cycles`, so
the lookup itself raises `AttributeError`; the surrounding
`except nx.NetworkXError` clause does not catch `AttributeError`, so the
exception propagates out of `validate_dependencies`. -/
def nxFindCycles : Option (Graph → List (List Val)) := none

/-- `str(e)` of the `AttributeError` raised by the `nx.find_cycles` lookup. -/
def nxFindCyclesMsg : String :=
  s!"module {sq}networkx{sq} has no attribute {sq}find_cycles{sq}"

/-! ### DependencyValidator -/

/-- Result dictionary of `DependencyValidator.validate_dependencies`. -/
structure DepResult where
  valid : Bool
  errors : List String
  warnings : List String
  missing_dependencies : List Val
  invalid_versions : List Val
  circular_dependencies : List (List Val)
deriving Repr

/-- The initial result dictionary (all lists empty, `valid=True`). -/
def depResultInit : DepResult := ⟨true, [], [], [], [], []⟩

/-- Result dictionary of `DependencyValidator._validate_single_dependency`. -/
structure SingleDepResult where
  valid : Bool
  errors : List String
  warnings : List String
  missing_dependencies : List Val
  invalid_versions : List Val
deriving Repr

/-- `DependencyValidator._validate_single_dependency(dep, index)`. -/
def validateSingleDependency (reg : List (String × Val)) (dep : Val) (index : Nat) :
    Except PyErr SingleDepResult :=
  match dep with
  | .map kvs =>
    -- required fields "artifact" and "purpose"
    let missA := !(kvs.any fun kv => kv.1 == "artifact")
    let missP := !(kvs.any fun kv => kv.1 == "purpose")
    let errs :=
      (if missA then [s!"Dependency {index} missing required field: artifact"] else []) ++
      (if missP then [s!"Dependency {index} missing required field: purpose"] else [])
    let r : SingleDepResult := ⟨!(missA || missP), errs, [], [], []⟩
    -- registry existence check (only when a registry is supplied)
    let step2 : Except PyErr SingleDepResult :=
      if !missA && !reg.isEmpty then
        match kvs.lookup "artifact" with
        | some nm =>
          match pyInStrKeys nm (reg.map Prod.fst) with
          | .error e => .error e
          | .ok present =>
            if present then .ok r
            else .ok { r with
              missing_dependencies := [nm],
              warnings := [s!"Dependency artifact not found in registry: {pyStr nm}"] }
        | none => .ok r
      else .ok r
    match step2 with
    | .error e => .error e
    | .ok r2 =>
      -- version constraint check
      if kvs.any fun kv => kv.1 == "version" then
        match kvs.lookup "version" with
        | some ver =>
          match ver with
          | .str vs =>
            if isValidVersionConstraint vs then .ok r2
            else .ok { r2 with
              invalid_versions := r2.invalid_versions ++ [ver],
              warnings := r2.warnings ++ [s!"Invalid version constraint: {vs}"] }
          | _ => .error (.typeError "expected string or bytes-like object")
        | none => .ok r2
      else .ok r2
  | _ => .ok ⟨false, [s!"Dependency {index} must be an object"], [], [], []⟩

/-- The loop body of `validate_dependencies` over the `dependsOn` entries,
threading the mutable instance graph (mutations performed before an
exception persist). -/
def depLoop (reg : List (String × Val)) (node : Val) :
    List Val → Nat → DepResult → Graph → (Except PyErr DepResult) × Graph
  | [], _, r, g => (.ok r, g)
  | dep :: rest, i, r, g =>
    match validateSingleDependency reg dep i with
    | .error e => (.error e, g)
    | .ok dr =>
      let r1 := if dr.valid then r else { r with valid := false, errors := r.errors ++ dr.errors }
      let r2 := { r1 with
        warnings := r1.warnings ++ dr.warnings,
        missing_dependencies := r1.missing_dependencies ++ dr.missing_dependencies,
        invalid_versions := r1.invalid_versions ++ dr.invalid_versions }
      match pyIn "artifact" dep with
      | .error e => (.error e, g)
      | .ok false => depLoop reg node rest (i + 1) r2 g
      | .ok true =>
        match pySubscript dep "artifact" with
        | .error e => (.error e, g)
        | .ok target =>
          match addEdge g node target with
          | (.error e, g2) => (.error e, g2)
          | (.ok _, g2) => depLoop reg node rest (i + 1) r2 g2

/-- `DependencyValidator.validate_dependencies(artifact)`.  The graph input
is the validator instance state `self.dependency_graph`; the returned graph
is that state after the call (the method never resets it). -/
def validateDependencies (reg : List (String × Val)) (g : Graph) (artifact : Val) :
    (Except PyErr DepResult) × Graph :=
  match pyNotIn "dependsOn" artifact with
  | .error e => (.error e, g)
  | .ok true => (.ok depResultInit, g)
  | .ok false =>
    match pySubscript artifact "dependsOn" with
    | .error e => (.error e, g)
    | .ok deps =>
      match deps with
      | .list ds =>
        match valGet artifact "metadata" (.map []) with
        | .error e => (.error e, g)
        | .ok md =>
          match valGet md "name" (.str "unknown") with
          | .error e => (.error e, g)
          | .ok node =>
            match addNode g node with
            | .error e => (.error e, g)
            | .ok g1 =>
              match depLoop reg node ds 0 depResultInit g1 with
              | (.error e, g2) => (.error e, g2)
              | (.ok r, g2) =>
                -- cycles = list(nx.find_cycles(self.dependency_graph))
                match nxFindCycles with
                | none => (.error (.attributeError nxFindCyclesMsg), g2)
                | some f =>
                  let cycles := f g2
                  if cycles.isEmpty then (.ok r, g2)
                  else
                    let r3 := { r with valid := false, circular_dependencies := cycles,
                                       errors := r.errors ++ ["Circular dependencies detected"] }
                    (.ok r3, g2)
      | _ =>
        let rNl := { depResultInit with valid := false, errors := ["dependsOn must be an array"] }
        (.ok rNl, g)

/-! ### SemanticTypeValidator -/

/-- One entry of the static semantic-type schema table. -/
structure SchemaEntry where
  required_fields : List String
  optional_fields : List String
  can_depend_on : List String
deriving Repr

/-- `SemanticTypeValidator._load_semantic_schemas()`. -/
def semanticTypeSchemas : List (String × SchemaEntry) :=
  [("manifest", ⟨["apiVersion", "kind", "metadata", "spec"],
                 ["dependsOn", "governance"],
                 ["schema", "spec", "governance", "policy"]⟩),
   ("schema", ⟨["apiVersion", "kind", "metadata", "schema"],
               ["dependsOn"],
               ["manifest", "governance"]⟩),
   ("spec", ⟨["apiVersion", "kind", "metadata", "specification"],
             ["dependsOn", "examples"],
             ["manifest", "schema", "governance"]⟩),
   ("governance", ⟨["apiVersion", "kind", "metadata", "policies"],
                   ["dependsOn", "roles"],
                   ["manifest"]⟩),
   ("policy", ⟨["apiVersion", "kind", "metadata", "rules"],
               ["dependsOn"],
               ["manifest", "governance"]⟩),
   ("role", ⟨["apiVersion", "kind", "metadata", "permissions"],
             ["dependsOn"],
             ["manifest", "governance", "policy"]⟩),
   ("toolchain", ⟨["apiVersion", "kind", "metadata", "tools"],
                  ["dependsOn"],
                  ["manifest", "spec", "schema"]⟩),
   ("index", ⟨["apiVersion", "kind", "metadata", "artifacts"],
              ["dependsOn"],
              ["manifest", "schema"]⟩),
   ("documentation", ⟨["apiVersion", "kind", "metadata", "content"],
                      ["dependsOn"],
                      ["manifest", "spec", "examples"]⟩)]

/-- Result dictionary of `SemanticTypeValidator.validate_semantic_consistency`. -/
structure SemResult where
  valid : Bool
  errors : List String
  warnings : List String
  type_violations : List String
  relationship_violations : List String
deriving Repr

/-- `SemanticTypeValidator._validate_against_semantic_schema(artifact, t)`:
missing required fields, then unexpected top-level fields (iterated in the
document key order). -/
def validateAgainstSemanticSchema (kvs : List (String × Val)) (t : String) : List String :=
  let schema := (semanticTypeSchemas.lookup t).getD ⟨[], [], []⟩
  let missing := (schema.required_fields.filter fun f => !(kvs.any fun kv => kv.1 == f)).map
    fun f => s!"Missing required field for {t}: {f}"
  let allowed := schema.required_fields ++ schema.optional_fields ++
    ["apiVersion", "kind", "metadata", "dependsOn"]
  let unexpected := ((kvs.map Prod.fst).filter fun f => !(allowed.contains f)).map
    fun f => s!"Unexpected field for {t}: {f}"
  missing ++ unexpected

/-- Loop of `SemanticTypeValidator._validate_semantic_relationships` over the
`dependsOn` entries. -/
def relLoop (allowed : List String) (t : String) : List Val → Except PyErr (List String)
  | [] => .ok []
  | dep :: rest =>
    match pyIn "semanticType" dep with
    | .error e => .error e
    | .ok false => relLoop allowed t rest
    | .ok true =>
      match pySubscript dep "semanticType" with
      | .error e => .error e
      | .ok dt =>
        let inAllowed := match dt with
          | .str d => allowed.contains d
          | _ => false
        match relLoop allowed t rest with
        | .error e => .error e
        | .ok vs =>
          if inAllowed then .ok vs
          else
            let allowedStr := String.intercalate ", " allowed
            .ok (s!"{t} cannot depend on {pyStr dt}. Allowed: {allowedStr}" :: vs)

/-- `SemanticTypeValidator._validate_semantic_relationships(artifact, t)`. -/
def validateSemanticRelationships (kvs : List (String × Val)) (t : String) :
    Except PyErr (List String) :=
  let allowed := ((semanticTypeSchemas.lookup t).getD ⟨[], [], []⟩).can_depend_on
  if kvs.any fun kv => kv.1 == "dependsOn" then
    match kvs.lookup "dependsOn" with
    | some dv =>
      match pyIterate dv with
      | .error e => .error e
      | .ok deps => relLoop allowed t deps
    | none => .ok []
  else .ok []

/-- `SemanticTypeValidator.validate_semantic_consistency(artifact)`. -/
def validateSemanticConsistency (doc : Val) : Except PyErr SemResult :=
  -- if "metadata" not in artifact or "semanticType" not in artifact["metadata"]
  match pyNotIn "metadata" doc with
  | .error e => .error e
  | .ok b1 =>
    if b1 then .ok ⟨false, ["Missing semanticType in metadata"], [], [], []⟩
    else
      match pySubscript doc "metadata" with
      | .error e => .error e
      | .ok md =>
        match pyNotIn "semanticType" md with
        | .error e => .error e
        | .ok b2 =>
          if b2 then .ok ⟨false, ["Missing semanticType in metadata"], [], [], []⟩
          else
            match pySubscript md "semanticType" with
            | .error e => .error e
            | .ok st =>
              match pyInStrKeys st (semanticTypeSchemas.map Prod.fst) with
              | .error e => .error e
              | .ok known =>
                if !known then .ok ⟨false, [s!"Invalid semantic type: {pyStr st}"], [], [], []⟩
                else
                  match st, doc with
                  | .str t, .map kvs =>
                    let tv := validateAgainstSemanticSchema kvs t
                    if kvs.any fun kv => kv.1 == "dependsOn" then
                      match validateSemanticRelationships kvs t with
                      | .error e => .error e
                      | .ok rel => .ok ⟨tv.isEmpty, tv, rel, tv, rel⟩
                    else .ok ⟨tv.isEmpty, tv, [], tv, []⟩
                  -- unreachable: `known` forces a string type name, and the
                  -- successful subscriptions force a mapping document
                  | _, _ => .ok ⟨false, [s!"Invalid semantic type: {pyStr st}"], [], [], []⟩

/-! ### NamingSpecificationValidator -/

/-- Per-sub-check result dictionary (`valid`/`errors`/`warnings`). -/
structure NamingSub where
  valid : Bool
  errors : List String
  warnings : List String
deriving Repr

/-- One entry of the `namespace_formats` naming-rule table. -/
structure NsPattern where
  matcher : String → Bool
  verification_required : Bool

/-- The `namespace_formats` table (`io.github.*`, `com.*`, `org.*`), in
iteration order; every entry requires verification. -/
def namespaceFormats : List NsPattern :=
  [⟨matchNsGithub, true⟩, ⟨matchNsCom, true⟩, ⟨matchNsOrg, true⟩]

/-- A value of the `artifact_patterns` naming-rule table. -/
inductive RulePatVal where
  | pat (m : String → Bool)
  | num (n : Nat)
  | words (ws : List String)

/-- The `artifact_patterns` table of `_load_naming_rules`: its keys are
`format`, `max_length`, `min_length` and `reserved_words` — there is no
`pattern` key. -/
def artifactPatterns : List (String × RulePatVal) :=
  [("format", .pat matchExtArtifactName), ("max_length", .num 50), ("min_length", .num 3),
   ("reserved_words", .words ["mcp", "system", "core", "api", "internal"])]

/-- Does a mapping value have the given key (callers guarantee a mapping)? -/
def mapHasKey (v : Val) (k : String) : Bool :=
  match v with
  | .map kvs => kvs.any fun kv => kv.1 == k
  | _ => false

/-- `NamingSpecificationValidator._validate_naming_registry(naming_registry)`. -/
def validateNamingRegistry (nr : Val) : Except PyErr NamingSub :=
  match valGet nr "format" .null with
  | .error e => .error e
  | .ok fmtV =>
    let fmtBad := pyNeStr fmtV "reverse-DNS"
    let errs0 := if fmtBad then [s!"Naming registry format must be {sq}reverse-DNS{sq}"] else []
    match valGet nr "namespace" (.str "") with
    | .error e => .error e
    | .ok nsV =>
      -- the loop applies re.match(pattern, namespace): non-string namespaces raise
      match nsV with
      | .str ns =>
        match namespaceFormats.find? fun p => p.matcher ns with
        | some p =>
          let warns :=
            if p.verification_required then
              if !(mapHasKey nr "verificationStatus") then
                [s!"Namespace {ns} requires verification"]
              else
                match valGet nr "verificationStatus" .null with
                | .ok vsv => if pyNeStr vsv "verified" then [s!"Namespace {ns} is not verified"] else []
                | .error _ => []
            else []
          .ok ⟨!fmtBad, errs0, warns⟩
        | none => .ok ⟨false, errs0 ++ [s!"Invalid namespace format: {ns}"], []⟩
      | _ => .error (.typeError "expected string or bytes-like object")

/-- `NamingSpecificationValidator._validate_artifact_name(name)`: the first
statement subscripts `self.naming_rules["artifact_patterns"]` with the key
`"pattern"`, but the table (see `artifactPatterns`) defines no such key, so
the method raises `KeyError("pattern")` before any check runs; the remaining
body (lines 555-573) is unreachable and modelled for completeness. -/
def validateArtifactNameExt (name : Val) : Except PyErr NamingSub :=
  match artifactPatterns.lookup "pattern" with
  | none => .error (.keyError (sq ++ "pattern" ++ sq))
  | some pv =>
    match pv, name with
    | .pat m, .str nm =>
      let errs :=
        (if !m nm then [s!"Invalid artifact name format: {nm}"] else []) ++
        (if nm.length > 50 then ["Artifact name too long (max 50 characters)"] else []) ++
        (if nm.length < 3 then ["Artifact name too short (min 3 characters)"] else [])
      let warns :=
        if ["mcp", "system", "core", "api", "internal"].contains nm then
          [s!"Artifact name uses reserved word: {nm}"]
        else []
      .ok ⟨errs.isEmpty, errs, warns⟩
    | _, _ => .error (.typeError "expected string or bytes-like object")

/-- `NamingSpecificationValidator._validate_version(version)`: the version
patterns are tried in order `semver`, `prerelease`, `build`. -/
def validateVersionExt (ver : Val) : Except PyErr NamingSub :=
  match ver with
  | .str v =>
    if matchSemver v then .ok ⟨true, [], []⟩
    else if matchPrerelease v then .ok ⟨true, [], ["Using prerelease version"]⟩
    else if matchBuild v then .ok ⟨true, [], ["Using build version with metadata"]⟩
    else .ok ⟨false, [s!"Invalid version format: {v}"], []⟩
  | _ => .error (.typeError "expected string or bytes-like object")

/-- Result dictionary of
`NamingSpecificationValidator.validate_naming_specifications`; `none`
sub-results model the initial empty dictionaries. -/
structure NamingResultX where
  valid : Bool
  errors : List String
  warnings : List String
  namespace_compliance : Option NamingSub
  artifact_name_compliance : Option NamingSub
  version_compliance : Option NamingSub
deriving Repr

/-- Merge a sub-result into the running naming result (extend errors only
when the sub-result is invalid — its errors list is non-empty exactly then —
and always extend warnings). -/
def namingMerge (valid : Bool) (errors warnings : List String) (sub : NamingSub) :
    Bool × List String × List String :=
  (valid && sub.valid,
   if sub.valid then errors else errors ++ sub.errors,
   warnings ++ sub.warnings)

/-- `NamingSpecificationValidator.validate_naming_specifications(artifact)`. -/
def validateNamingSpecifications (doc : Val) : Except PyErr NamingResultX :=
  match pyNotIn "metadata" doc with
  | .error e => .error e
  | .ok true => .ok ⟨false, ["Missing metadata"], [], none, none, none⟩
  | .ok false =>
    match pySubscript doc "metadata" with
    | .error e => .error e
    | .ok md =>
      -- namespace compliance
      match pyIn "namingRegistry" md with
      | .error e => .error e
      | .ok hasNR =>
        let nsStep : Except PyErr (Option NamingSub) :=
          if hasNR then
            match pySubscript md "namingRegistry" with
            | .error e => .error e
            | .ok nr =>
              match validateNamingRegistry nr with
              | .error e => .error e
              | .ok sub => .ok (some sub)
          else .ok none
        match nsStep with
        | .error e => .error e
        | .ok nsSub =>
          let (v1, e1, w1) := match nsSub with
            | some sub => namingMerge true [] [] sub
            | none => (true, [], [])
          -- artifact name compliance
          match pyIn "name" md with
          | .error e => .error e
          | .ok hasName =>
            let nameStep : Except PyErr (Option NamingSub) :=
              if hasName then
                match pySubscript md "name" with
                | .error e => .error e
                | .ok nm =>
                  match validateArtifactNameExt nm with
                  | .error e => .error e
                  | .ok sub => .ok (some sub)
              else .ok none
            match nameStep with
            | .error e => .error e
            | .ok nameSub =>
              let (v2, e2, w2) := match nameSub with
                | some sub => namingMerge v1 e1 w1 sub
                | none => (v1, e1, w1)
              -- version compliance
              match pyIn "version" md with
              | .error e => .error e
              | .ok hasVer =>
                let verStep : Except PyErr (Option NamingSub) :=
                  if hasVer then
                    match pySubscript md "version" with
                    | .error e => .error e
                    | .ok vv =>
                      match validateVersionExt vv with
                      | .error e => .error e
                      | .ok sub => .ok (some sub)
                  else .ok none
                match verStep with
                | .error e => .error e
                | .ok verSub =>
                  let (v3, e3, w3) := match verSub with
                    | some sub => namingMerge v2 e2 w2 sub
                    | none => (v2, e2, w2)
                  .ok ⟨v3, e3, w3, nsSub, nameSub, verSub⟩

/-! ### ReferenceValidator -/

/-- One extracted reference: the dotted/indexed path of the field and its
value (the Python dictionary also carries the constant
`type: direct_reference`). -/
structure RefEntry where
  fieldPath : String
  refValue : Val
deriving Repr

mutual

/-- `ReferenceValidator._extract_references(artifact, path)`. -/
def extractReferences : Val → String → List RefEntry
  | .map kvs, path => extractFromItems kvs path
  | .list xs, path => extractFromList xs path 0
  | _, _ => []

/-- Key/value walk of a mapping: a key ending in `Ref`/`Reference` yields a
reference (its value is not recursed into); container values recurse. -/
def extractFromItems : List (String × Val) → String → List RefEntry
  | [], _ => []
  | (k, v) :: rest, path =>
    let cur := if path == "" then k else path ++ "." ++ k
    let here :=
      if k.endsWith "Ref" || k.endsWith "Reference" then [⟨cur, v⟩]
      else
        match v with
        | .map kvs2 => extractFromItems kvs2 cur
        | .list xs => extractFromList xs cur 0
        | _ => []
    here ++ extractFromItems rest path

/-- Indexed walk of a sequence; only container items recurse. -/
def extractFromList : List Val → String → Nat → List RefEntry
  | [], _, _ => []
  | x :: rest, path, i =>
    let cur := if path == "" then s!"[{i}]" else s!"{path}[{i}]"
    let here :=
      match x with
      | .map kvs => extractFromItems kvs cur
      | .list xs => extractFromList xs cur 0
      | _ => []
    here ++ extractFromList rest path (i + 1)

end

/-- Result dictionary of `ReferenceValidator._validate_reference`. -/
structure RefCheck where
  valid : Bool
  errors : List String
  warnings : List String
  broken : Bool
  target_exists : Bool
deriving Repr

/-- `ReferenceValidator._validate_reference(reference)`: non-strings are an
immediate hard error; strings get a registry existence warning (when a
registry is supplied) and a format check. -/
def validateSingleReference (reg : List (String × Val)) (r : RefEntry) : RefCheck :=
  match r.refValue with
  | .str s =>
    let missing := !reg.isEmpty && !(reg.any fun kv => kv.1 == s)
    let warns := if missing then [s!"Reference target not found in registry: {s}"] else []
    if isValidReferenceFormat s then ⟨true, [], warns, false, !missing⟩
    else ⟨false, [s!"Invalid reference format: {s}"], warns, true, !missing⟩
  | _ => ⟨false, [s!"Invalid reference format at {r.fieldPath}"], [], true, true⟩

/-- Result dictionary of `ReferenceValidator.validate_references`. -/
structure RefResult where
  valid : Bool
  errors : List String
  warnings : List String
  broken_references : List RefEntry
  missing_targets : List RefEntry
deriving Repr

/-- The initial reference result. -/
def refResultInit : RefResult := ⟨true, [], [], [], []⟩

/-- The accumulation loop of `validate_references`. -/
def refLoop (reg : List (String × Val)) : List RefEntry → RefResult → RefResult
  | [], acc => acc
  | r :: rest, acc =>
    let c := validateSingleReference reg r
    let a1 := if c.valid then acc else { acc with valid := false, errors := acc.errors ++ c.errors }
    let a2 := { a1 with warnings := a1.warnings ++ c.warnings }
    let a3 := if c.broken then { a2 with broken_references := a2.broken_references ++ [r] } else a2
    let a4 := if !c.target_exists then { a3 with missing_targets := a3.missing_targets ++ [r] } else a3
    refLoop reg rest a4

/-- `ReferenceValidator.validate_references(artifact)`. -/
def validateReferences (reg : List (String × Val)) (doc : Val) : RefResult :=
  refLoop reg (extractReferences doc "") refResultInit

/-! ### Basic validator (`tools/validator.py`, `MCPValidator`)

`validate_artifact` wraps its whole body in `try/except Exception`, so it
never raises: an internal exception appends `Failed to load artifact: ...`
to the errors collected so far and forces status FAILED.  It is modelled
here without an external JSON schema (`schema_path=None`), which skips the
`_validate_against_schema` step. -/

/-- Shared validation status enumeration (`passed`/`failed`/`warning`, plus
the extended `skipped`). -/
inductive VStatus where
  | passed
  | failed
  | warning
  | skipped
deriving DecidableEq, Repr

/-- The final status determination (lines 758-766 of the extended validator,
identical in shape to lines 118-126 of the basic one): `failed` on any
error, `failed` on warnings in strict mode, `warning` on warnings, else
`passed`. -/
def statusOf (errors warnings : List String) (strict : Bool) : VStatus :=
  if !errors.isEmpty then .failed
  else if !warnings.isEmpty && strict then .failed
  else if !warnings.isEmpty then .warning
  else .passed

/-- Loop of `MCPValidator._validate_structure` over the required metadata
fields. -/
def structMetaLoop (md : Val) : List String → Except PyErr (List String)
  | [] => .ok []
  | f :: rest =>
    match pyNotIn f md with
    | .error e => .error e
    | .ok true =>
      match structMetaLoop md rest with
      | .error e => .error e
      | .ok ms => .ok (s!"Missing required metadata field: {f}" :: ms)
    | .ok false => structMetaLoop md rest

/-- `MCPValidator._validate_structure(artifact)` (the artifact is a mapping
whenever this runs). -/
def mValidateStructure (kvs : List (String × Val)) : Except PyErr (List String) :=
  let top := (["apiVersion", "kind", "metadata"].filter fun f => !(kvs.any fun kv => kv.1 == f)).map
    fun f => s!"Missing required field: {f}"
  if kvs.any fun kv => kv.1 == "metadata" then
    match kvs.lookup "metadata" with
    | some md =>
      match structMetaLoop md ["name", "version", "semanticType"] with
      | .error e => .error e
      | .ok ms => .ok (top ++ ms)
    | none => .ok top
  else .ok top

/-- `MCPValidator._validate_naming(artifact)`: name pattern
`^[a-z0-9.-]+/[a-z0-9-]+$`, version pattern `^\d+\.\d+\.\d+$`, and a
`namingRegistry.format` warning. -/
def mValidateNamingBasic (kvs : List (String × Val)) : Except PyErr (List String × List String) :=
  if !(kvs.any fun kv => kv.1 == "metadata") then .ok ([], [])
  else
    match kvs.lookup "metadata" with
    | none => .ok ([], [])
    | some md =>
      match pyIn "name" md with
      | .error e => .error e
      | .ok hasN =>
        let nameStep : Except PyErr (List String) :=
          if hasN then
            match pySubscript md "name" with
            | .error e => .error e
            | .ok nv =>
              match nv with
              | .str n =>
                if matchBasicName n then .ok []
                else .ok [s!"Invalid name format: {sq}{n}{sq}. Must match pattern: namespace/artifact-name (lowercase, hyphens allowed)"]
              | _ => .error (.typeError "expected string or bytes-like object")
          else .ok []
        match nameStep with
        | .error e => .error e
        | .ok nameErrs =>
          match pyIn "version" md with
          | .error e => .error e
          | .ok hasV =>
            let verStep : Except PyErr (List String) :=
              if hasV then
                match pySubscript md "version" with
                | .error e => .error e
                | .ok vv =>
                  match vv with
                  | .str v =>
                    if matchSemver v then .ok []
                    else .ok [s!"Invalid version format: {sq}{v}{sq}. Must follow semantic versioning: MAJOR.MINOR.PATCH"]
                  | _ => .error (.typeError "expected string or bytes-like object")
              else .ok []
            match verStep with
            | .error e => .error e
            | .ok verErrs =>
              match pyIn "namingRegistry" md with
              | .error e => .error e
              | .ok hasNR =>
                let nrStep : Except PyErr (List String) :=
                  if hasNR then
                    match pySubscript md "namingRegistry" with
                    | .error e => .error e
                    | .ok nr =>
                      match valGet nr "format" .null with
                      | .error e => .error e
                      | .ok fv =>
                        if pyNeStr fv "reverse-DNS" then
                          .ok [s!"Naming registry format should be {sq}reverse-DNS{sq}"]
                        else .ok []
                  else .ok []
                match nrStep with
                | .error e => .error e
                | .ok nrWarns => .ok (nameErrs ++ verErrs, nrWarns)

/-- Loop of `MCPValidator._validate_dependencies` (pure: it only does
`isinstance` checks and mapping-key tests). -/
def depBasicLoop : List Val → Nat → List String
  | [], _ => []
  | d :: rest, i =>
    (match d with
     | .map dk =>
       (if !(dk.any fun kv => kv.1 == "artifact") then
          [s!"Dependency {i} missing {sq}artifact{sq} field"] else []) ++
       (if !(dk.any fun kv => kv.1 == "purpose") then
          [s!"Dependency {i} missing {sq}purpose{sq} field"] else [])
     | _ => [s!"Dependency {i} must be an object"]) ++ depBasicLoop rest (i + 1)

/-- `MCPValidator._validate_dependencies(artifact)`. -/
def mValidateDependenciesBasic (kvs : List (String × Val)) : List String :=
  if !(kvs.any fun kv => kv.1 == "dependsOn") then []
  else
    match kvs.lookup "dependsOn" with
    | some (.list ds) => depBasicLoop ds 0
    | some _ => ["dependsOn must be an array"]
    | none => []

/-- The closed list of valid semantic types of the basic validator. -/
def basicValidTypes : List String :=
  ["manifest", "schema", "spec", "index", "taxonomy",
   "governance", "policy", "role", "toolchain", "documentation"]

/-- `MCPValidator._validate_semantic_type(artifact)`. -/
def mValidateSemanticTypeBasic (kvs : List (String × Val)) : Except PyErr (List String) :=
  if !(kvs.any fun kv => kv.1 == "metadata") then .ok []
  else
    match kvs.lookup "metadata" with
    | none => .ok []
    | some md =>
      match pyNotIn "semanticType" md with
      | .error e => .error e
      | .ok true => .ok ["Missing semanticType in metadata"]
      | .ok false =>
        match pySubscript md "semanticType" with
        | .error e => .error e
        | .ok st =>
          let known := match st with
            | .str s => basicValidTypes.contains s
            | _ => false
          if known then .ok []
          else .ok [s!"Invalid semanticType: {sq}{pyStr st}{sq}. Must be one of: manifest, schema, spec, index, taxonomy, governance, policy, role, toolchain, documentation"]

/-- Result of the basic `validate_artifact`. -/
structure BasicResult where
  status : VStatus
  errors : List String
  warnings : List String
deriving Repr

/-- The errors and warnings accumulated by the `try` body of
`MCPValidator.validate_artifact` (an exception anywhere keeps what earlier
steps already extended and appends the `Failed to load artifact` message;
the partial list a raising step built locally is lost). -/
def basicErrorsWarnings (doc : Val) : List String × List String :=
  -- artifact_type = artifact.get("kind", "Unknown") runs first and raises
  -- for every non-mapping document
  match valGet doc "kind" (.str "Unknown") with
  | .error e => ([s!"Failed to load artifact: {pyErrStr e}"], [])
  | .ok _ =>
    match doc with
    | .map kvs =>
      match mValidateStructure kvs with
      | .error e => ([s!"Failed to load artifact: {pyErrStr e}"], [])
      | .ok se =>
        match mValidateNamingBasic kvs with
        | .error e => (se ++ [s!"Failed to load artifact: {pyErrStr e}"], [])
        | .ok (ne, nw) =>
          let de := mValidateDependenciesBasic kvs
          match mValidateSemanticTypeBasic kvs with
          | .error e => (se ++ ne ++ de ++ [s!"Failed to load artifact: {pyErrStr e}"], nw)
          | .ok sem => (se ++ ne ++ de ++ sem, nw)
    | _ => ([], [])  -- unreachable: valGet succeeds only on mappings

/-- `MCPValidator.validate_artifact` on an already-parsed document.  On the
exception path the source sets FAILED directly; since that path always
appends an error, `statusOf` yields FAILED there as well. -/
def validateArtifactBasic (doc : Val) (strict : Bool) : BasicResult :=
  let ew := basicErrorsWarnings doc
  ⟨statusOf ew.1 ew.2 strict, ew.1, ew.2⟩

/-! ### ExtendedMCPValidator.validate_artifact_extended

Modelled on an already-parsed document (the `try` around loading covers
only file-system and parse failures), with endpoint validation in its
default disabled state and registry `self.artifact_registry`.  The graph
argument is the persistent `self.dependency_validator.dependency_graph`
instance state; the returned graph is that state after the call. -/

/-- The default endpoint result used when `validate_endpoints` is off. -/
structure EndResult where
  valid : Bool
  errors : List String
  warnings : List String
deriving Repr

/-- `{"valid": True, "errors": [], "warnings": []}`. -/
def endpointResultDefault : EndResult := ⟨true, [], []⟩

/-- The extended validation report (wall-clock `validation_time_seconds` is
outside the model; the remaining performance counters are kept). -/
structure ExtendedResult where
  status : VStatus
  artifactType : Val
  errors : List String
  warnings : List String
  dependency_results : DepResult
  semantic_results : SemResult
  naming_results : NamingResultX
  reference_results : RefResult
  endpoint_results : EndResult
  circular_dependency_detected : Bool
  dependency_count : Nat
  endpoint_count : Nat
  reference_count : Nat
deriving Repr

/-- `ExtendedMCPValidator.validate_artifact_extended(artifact_path, strict)`
after a successful parse of the document. -/
def validateArtifactExtended (reg : List (String × Val)) (g : Graph) (doc : Val)
    (strict : Bool) : (Except PyErr ExtendedResult) × Graph :=
  let basic := validateArtifactBasic doc strict
  match validateDependencies reg g doc with
  | (.error e, g2) => (.error e, g2)
  | (.ok depR, g2) =>
    match validateSemanticConsistency doc with
    | .error e => (.error e, g2)
    | .ok semR =>
      match validateNamingSpecifications doc with
      | .error e => (.error e, g2)
      | .ok namR =>
        let refR := validateReferences reg doc
        let endR := endpointResultDefault
        let errors := basic.errors ++ depR.errors ++ semR.errors ++
          namR.errors ++ refR.errors ++ endR.errors
        let warnings := basic.warnings ++ depR.warnings ++ semR.warnings ++
          namR.warnings ++ refR.warnings ++ endR.warnings
        -- performance metrics: len(artifact.get("dependsOn", [])) and
        -- len(artifact.get("endpoints", [])) raise on non-mapping documents
        -- and unsized values
        match valGet doc "dependsOn" (.list []) with
        | .error e => (.error e, g2)
        | .ok depsV =>
          match pyLen depsV with
          | .error e => (.error e, g2)
          | .ok depCount =>
            match valGet doc "endpoints" (.list []) with
            | .error e => (.error e, g2)
            | .ok epV =>
              match pyLen epV with
              | .error e => (.error e, g2)
              | .ok epCount =>
                let aty := match doc with
                  | .map kvs => (kvs.lookup "kind").getD (.str "Unknown")
                  | _ => .str "Unknown"  -- unreachable: the metrics already raised
                let res : ExtendedResult := {
                  status := statusOf errors warnings strict
                  artifactType := aty
                  errors := errors
                  warnings := warnings
                  dependency_results := depR
                  semantic_results := semR
                  naming_results := namR
                  reference_results := refR
                  endpoint_results := endR
                  circular_dependency_detected := !depR.circular_dependencies.isEmpty
                  dependency_count := depCount
                  endpoint_count := epCount
                  reference_count := refR.broken_references.length }
                (.ok res, g2)

/-- The exit-code computation of `main` (line 953):
`sys.exit(0 if result.status == ExtendedValidationStatus.PASSED else 1)`. -/
def mainExitCode (st : VStatus) : Nat :=
  if st = VStatus.passed then 0 else 1

/-- The exit-code contract claimed by the specification: exit 0 iff the
status is `passed`, or is `warning` while strict mode is off. -/
def claimedExitZero (st : VStatus) (strict : Bool) : Prop :=
  st = VStatus.passed ∨ (st = VStatus.warning ∧ strict = false)

/-! ### Concrete documents used by the theorems -/

/-- `{"metadata": {"name": "artifact-a"}, "dependsOn": [{"artifact":
"artifact-b", "purpose": "reference"}]}` — the first artifact of the
circular-dependency scenario in the repository test suite
(`test_validate_circular_dependencies`). -/
def cycleArtifactA : Val := .map [
  ("metadata", .map [("name", .str "artifact-a")]),
  ("dependsOn", .list [.map [("artifact", .str "artifact-b"), ("purpose", .str "reference")]])]

/-- The second artifact of the circular-dependency scenario
(`artifact-b` depending back on `artifact-a`). -/
def cycleArtifactB : Val := .map [
  ("metadata", .map [("name", .str "artifact-b")]),
  ("dependsOn", .list [.map [("artifact", .str "artifact-a"), ("purpose", .str "reference")]])]

/-- The scenario document of the specification:
`{apiVersion: v1, kind: Manifest, metadata: {name: test-artifact, version:
1.0.0, semanticType: manifest}, spec: {}, dependsOn: [{artifact: a,
purpose: config}]}`. -/
def scenarioDoc : Val := .map [
  ("apiVersion", .str "v1"), ("kind", .str "Manifest"),
  ("metadata", .map [("name", .str "test-artifact"), ("version", .str "1.0.0"),
                     ("semanticType", .str "manifest")]),
  ("spec", .map []),
  ("dependsOn", .list [.map [("artifact", .str "a"), ("purpose", .str "config")]])]

/-- A document on which the extended validation pipeline runs to completion
(no `dependsOn` list and no `metadata.name`, so neither crashing path is
reached). -/
def completingDoc : Val := .map [("apiVersion", .str "v1")]

/-- A naming registry whose namespace matches no configured prefix pattern. -/
def nrInvalidNs : List (String × Val) :=
  [("format", .str "reverse-DNS"), ("namespace", .str "invalid-namespace")]

/-- A naming registry with a matching `com.*` namespace and no
verification status. -/
def nrComNs : List (String × Val) :=
  [("format", .str "reverse-DNS"), ("namespace", .str "com.example")]

/-- Fallback report (only used as the unreachable default of extractors). -/
def extResultFallback : ExtendedResult :=
  ⟨.passed, .null, [], [], depResultInit, ⟨true, [], [], [], []⟩,
   ⟨true, [], [], none, none, none⟩, refResultInit, endpointResultDefault, false, 0, 0, 0⟩

/-- The report of the completing document in non-strict mode. -/
def completingRes : ExtendedResult :=
  match (validateArtifactExtended [] emptyGraph completingDoc false).1 with
  | .ok r => r
  | .error _ => extResultFallback

/-- The graph state after validating the completing document. -/
def completingG : Graph :=
  (validateArtifactExtended [] emptyGraph completingDoc false).2

/-- Graph `g'` extends graph `g`: nodes and edges were only ever appended. -/
def graphExtends (g g' : Graph) : Prop :=
  (∃ ns, g'.nodes = g.nodes ++ ns) ∧ (∃ es, g'.edges = g.edges ++ es)

/-- Is a parsed document a mapping? -/
def isMapDoc : Val → Bool
  | .map _ => true
  | _ => false

/-! Specification-side reference grammar (claim C7): `namespace/artifact-name`
or `namespace/artifact-name:X.Y.Z`, with lowercase alphanumerics, dots and
hyphens in the namespace, lowercase alphanumerics and hyphens in the name,
and a three-part numeric version. -/

/-- Spec wording: a namespace character is a lowercase alphanumeric, a dot
or a hyphen. -/
def specNsChar (c : Char) : Prop :=
  c.isLower = true ∨ c.isDigit = true ∨ c = '.' ∨ c = '-'

/-- Spec wording: a name character is a lowercase alphanumeric or a hyphen. -/
def specNameChar (c : Char) : Prop :=
  c.isLower = true ∨ c.isDigit = true ∨ c = '-'

/-- Spec wording: a three-part numeric version `X.Y.Z`. -/
def specVersionChars (v : List Char) : Prop :=
  ∃ a b c, v = a ++ '.' :: (b ++ '.' :: c) ∧
    a ≠ [] ∧ b ≠ [] ∧ c ≠ [] ∧
    (∀ x ∈ a, x.isDigit = true) ∧ (∀ x ∈ b, x.isDigit = true) ∧ (∀ x ∈ c, x.isDigit = true)

/-- Spec wording of the reference grammar of claim C7, as the claim states
it (strict end of input, ASCII version digits). -/
def specReferenceGrammar (s : String) : Prop :=
  (∃ ns nm, s.data = ns ++ '/' :: nm ∧
    ns ≠ [] ∧ (∀ c ∈ ns, specNsChar c) ∧ nm ≠ [] ∧ (∀ c ∈ nm, specNameChar c)) ∨
  (∃ ns nm v, s.data = ns ++ '/' :: (nm ++ ':' :: v) ∧
    ns ≠ [] ∧ (∀ c ∈ ns, specNsChar c) ∧ nm ≠ [] ∧ (∀ c ∈ nm, specNameChar c) ∧
    specVersionChars v)

/-- The claim's version grammar with Python's `\d`: three dot-separated
runs of Unicode decimal digits. -/
def specVersionCharsPy (v : List Char) : Prop :=
  ∃ a b c, v = a ++ '.' :: (b ++ '.' :: c) ∧
    a ≠ [] ∧ b ≠ [] ∧ c ≠ [] ∧
    (∀ x ∈ a, pyDigit x = true) ∧ (∀ x ∈ b, pyDigit x = true) ∧ (∀ x ∈ c, pyDigit x = true)

/-- The reference grammar over a newline-free body, with Python's `\d` in
the version part. -/
def refBodyGrammarPy (cs : List Char) : Prop :=
  (∃ ns nm, cs = ns ++ '/' :: nm ∧
    ns ≠ [] ∧ (∀ c ∈ ns, specNsChar c) ∧ nm ≠ [] ∧ (∀ c ∈ nm, specNameChar c)) ∨
  (∃ ns nm v, cs = ns ++ '/' :: (nm ++ ':' :: v) ∧
    ns ≠ [] ∧ (∀ c ∈ ns, specNsChar c) ∧ nm ≠ [] ∧ (∀ c ∈ nm, specNameChar c) ∧
    specVersionCharsPy v)

/-- The reference grammar the program actually decides (Python `re.match`
semantics): a grammar body, optionally followed by a single trailing
newline (Python's `$`), with Unicode decimal digits in the version
(Python's `\d`). -/
def specReferenceGrammarPy (s : String) : Prop :=
  refBodyGrammarPy s.data ∨ ∃ b, s.data = b ++ ['\n'] ∧ refBodyGrammarPy b

/-- Decision procedure for the claim's version grammar (ASCII digits,
strict end): used to decide `specVersionChars` at concrete strings. -/
def asciiSemverList (cs : List Char) : Bool :=
  plusThen Char.isDigit '.'
    (fun r2 => plusThen Char.isDigit '.' (fun r3 => plusEnd Char.isDigit r3 false) r2 false)
    cs false

/-- Decision procedure for `specReferenceGrammar` (the claim's grammar as
stated, strict end of input, ASCII version digits): used by the
counterexample to decide grammar membership at concrete strings. -/
def grammarRefAccept (s : String) : Bool :=
  plusThen nsChar '/' (fun post => plusEnd nameChar post false) s.data false ||
  plusThen nsChar '/' (fun post => plusThen nameChar ':' (fun v => asciiSemverList v) post false)
    s.data false

/-- The accepted-but-outside-the-grammar counterexample input: a well-formed
reference followed by a single trailing newline (as a YAML block scalar
yields). -/
def trailingNlRef : String := "com.example/tool\n"

/-- The relationship-violation message of
`_validate_semantic_relationships`. -/
def relMsg (t : String) (dt : Val) (allowed : List String) : String :=
  let allowedStr := String.intercalate ", " allowed
  s!"{t} cannot depend on {pyStr dt}. Allowed: {allowedStr}"

/-- The violations `_validate_semantic_relationships` produces on a
`dependsOn` list whose entries are mappings: one message per entry whose
`semanticType` value is not an allowed dependency type. -/
def relMessages (allowed : List String) (t : String) (deps : List Val) : List String :=
  deps.filterMap fun d =>
    match d with
    | .map dk =>
      match dk.lookup "semanticType" with
      | some dt =>
        match dt with
        | .str x => if allowed.contains x then none else some (relMsg t dt allowed)
        | _ => some (relMsg t dt allowed)
      | none => none
    | _ => none

/-- Metadata of the semantic-relationship demonstration artifact. -/
def c9md : List (String × Val) :=
  [("name", .str "test-manifest"), ("semanticType", .str "manifest")]

/-- Its `dependsOn` entries: one dependency whose declared `semanticType`
(`invalid-type`) is not an allowed dependency type for a manifest. -/
def c9deps : List Val :=
  [.map [("artifact", .str "com.example/invalid-dependency"),
         ("semanticType", .str "invalid-type"), ("purpose", .str "reference")]]

/-- The demonstration artifact of the repository test
`test_validate_semantic_relationships`. -/
def c9kvs : List (String × Val) :=
  [("metadata", .map c9md), ("apiVersion", .str "mcp.io/v1"),
   ("kind", .str "Manifest"), ("spec", .map []), ("dependsOn", .list c9deps)]

/-! ## Theorems for the claims -/

/-- C1: the claim states that `DependencyValidator.validate_dependencies`
detects the cycle `A→B→A` (returning `valid=false` with a non-empty
`circular_dependencies` list) and returns `valid=true` with an empty list on
acyclic graphs.  The code instead raises an uncaught `AttributeError` on
every artifact whose `dependsOn` is a list: line 112 calls
`nx.find_cycles`, an attribute the networkx module does not define (its API
is `find_cycle`), and the `except nx.NetworkXError` clause does not catch
`AttributeError`.  This theorem evaluates the code at the failing input of
the repository test `test_validate_circular_dependencies`: the first call
(acyclic graph) already raises instead of returning `valid=true`, and the
second call (which completes the cycle) raises instead of reporting it. -/
theorem c1_cycle_detection_crashes :
    (validateDependencies [] emptyGraph cycleArtifactA).1
      = .error (.attributeError nxFindCyclesMsg) ∧
    (validateDependencies []
        ((validateDependencies [] emptyGraph cycleArtifactA).2) cycleArtifactB).1
      = .error (.attributeError nxFindCyclesMsg) := by
  constructor <;> rfl

/-- C2: the claim (and the repository test
`test_validate_artifact_extended_success`) states that the scenario
document validates as `passed` with zero errors and zero warnings.  The
code instead (a) raises the uncaught `nx.find_cycles` `AttributeError` in
dependency validation because the document has a `dependsOn` list, and (b)
even before that, the basic validator records the hard error
`Invalid name format: 'test-artifact'...` because
`MCPValidator._validate_naming` requires `metadata.name` to match
`namespace/artifact-name` (with a slash). -/
theorem c2_scenario_does_not_pass :
    (validateArtifactExtended [] emptyGraph scenarioDoc false).1
      = .error (.attributeError nxFindCyclesMsg) ∧
    (validateArtifactBasic scenarioDoc false).errors
      = [s!"Invalid name format: {sq}test-artifact{sq}. Must match pattern: namespace/artifact-name (lowercase, hyphens allowed)"] := by
  constructor <;> rfl

/-- C4 counterexample: the claim asserts exit code 0 when the overall status
is `warning` and strict mode is off (`claimedExitZero`), but `main` exits 0
only on `passed`, so a `warning` report exits 1. -/
theorem c4_counterexample_warning_exits_one :
    claimedExitZero VStatus.warning false ∧ mainExitCode VStatus.warning ≠ 0 :=
  ⟨Or.inr ⟨rfl, rfl⟩, by decide⟩

/-- C4 amended: the process exit code of `main` is 0 if and only if the
overall status is `passed`; every other status — including `warning`,
regardless of strict mode — exits 1. -/
theorem c4_exit_zero_iff_passed :
    ∀ st : VStatus, mainExitCode st = 0 ↔ st = VStatus.passed := by
  intro st; cases st <;> simp [mainExitCode]

/-- C5 counterexample: the dependency graph is not rebuilt per validation
run.  A fresh validator starts with no edges, and after one single-artifact
`validate_dependencies` invocation the instance graph still holds the edge
`artifact-a → artifact-b`, which persists into the next invocation —
refuting the claim that the graph does not persist state from one
single-artifact validate invocation into the next. -/
theorem c5_counterexample_graph_persists :
    emptyGraph.edges = [] ∧
    ((validateDependencies [] emptyGraph cycleArtifactA).2).edges
      = [(.str "artifact-a", .str "artifact-b")] :=
  ⟨rfl, rfl⟩

/-- The result component of `addEdge` does not depend on the graph. -/
theorem addEdge_fst_const (g g2 : Graph) (u v : Val) :
    (addEdge g u v).1 = (addEdge g2 u v).1 := by
  simp only [addEdge]
  cases hu : hashable u <;> cases hv : hashable v <;> simp [hu, hv]

/-- `graphExtends` is reflexive. -/
theorem graphExtends_refl (g : Graph) : graphExtends g g :=
  ⟨⟨[], by simp⟩, ⟨[], by simp⟩⟩

/-- `graphExtends` is transitive. -/
theorem graphExtends_trans {g1 g2 g3 : Graph}
    (h1 : graphExtends g1 g2) (h2 : graphExtends g2 g3) : graphExtends g1 g3 := by
  obtain ⟨⟨ns1, hn1⟩, ⟨es1, he1⟩⟩ := h1
  obtain ⟨⟨ns2, hn2⟩, ⟨es2, he2⟩⟩ := h2
  exact ⟨⟨ns1 ++ ns2, by simp [hn2, hn1]⟩, ⟨es1 ++ es2, by simp [he2, he1]⟩⟩

/-- Appending a node when absent extends the graph. -/
theorem nodeStep_extends (g : Graph) (c : Bool) (n : Val) :
    graphExtends g (if c then g else { g with nodes := g.nodes ++ [n] }) := by
  cases c
  · exact ⟨⟨[n], rfl⟩, ⟨[], by simp⟩⟩
  · exact graphExtends_refl g

/-- Appending an edge when absent extends the graph. -/
theorem edgeStep_extends (g : Graph) (c : Bool) (e : Val × Val) :
    graphExtends g (if c then g else { g with edges := g.edges ++ [e] }) := by
  cases c
  · exact ⟨⟨[], by simp⟩, ⟨[e], rfl⟩⟩
  · exact graphExtends_refl g

/-- `addEdge` only ever appends to the graph (also on its error paths). -/
theorem addEdge_extends (g : Graph) (u v : Val) : graphExtends g (addEdge g u v).2 := by
  simp only [addEdge]
  cases hu : hashable u
  · simpa using graphExtends_refl g
  · cases hv : hashable v
    · simpa using nodeStep_extends g (nodeMem u g.nodes) u
    · simp only [Bool.true_eq_false, if_true, if_false, ite_true, ite_false]
      exact graphExtends_trans (nodeStep_extends g (nodeMem u g.nodes) u)
        (graphExtends_trans (nodeStep_extends _ _ v) (edgeStep_extends _ _ (u, v)))

/-- The result component of the dependency loop does not depend on the
graph state. -/
theorem depLoop_fst_const (reg : List (String × Val)) (node : Val) :
    ∀ (deps : List Val) (i : Nat) (r : DepResult) (g g2 : Graph),
    (depLoop reg node deps i r g).1 = (depLoop reg node deps i r g2).1 := by
  intro deps
  induction deps with
  | nil => intro i r g g2; rfl
  | cons dep rest ih =>
    intro i r g g2
    simp only [depLoop]
    cases hsd : validateSingleDependency reg dep i with
    | error e => rfl
    | ok dr =>
      cases hin : pyIn "artifact" dep with
      | error e => rfl
      | ok b =>
        cases b with
        | false => exact ih _ _ g g2
        | true =>
          cases hsub : pySubscript dep "artifact" with
          | error e => rfl
          | ok target =>
            dsimp only
            have hfst := addEdge_fst_const g g2 node target
            rcases h1 : addEdge g node target with ⟨f1, gg1⟩
            rcases h2 : addEdge g2 node target with ⟨f2, gg2⟩
            rw [h1, h2] at hfst
            simp only at hfst
            subst hfst
            cases f1 with
            | error e => rfl
            | ok u => exact ih _ _ gg1 gg2

/-- The dependency loop only ever appends to the graph. -/
theorem depLoop_extends (reg : List (String × Val)) (node : Val) :
    ∀ (deps : List Val) (i : Nat) (r : DepResult) (g : Graph),
    graphExtends g (depLoop reg node deps i r g).2 := by
  intro deps
  induction deps with
  | nil => intro i r g; exact graphExtends_refl g
  | cons dep rest ih =>
    intro i r g
    simp only [depLoop]
    cases hsd : validateSingleDependency reg dep i with
    | error e => exact graphExtends_refl g
    | ok dr =>
      cases hin : pyIn "artifact" dep with
      | error e => exact graphExtends_refl g
      | ok b =>
        cases b with
        | false => exact ih _ _ g
        | true =>
          cases hsub : pySubscript dep "artifact" with
          | error e => exact graphExtends_refl g
          | ok target =>
            dsimp only
            have hext := addEdge_extends g node target
            rcases h1 : addEdge g node target with ⟨f1, gg1⟩
            rw [h1] at hext
            cases f1 with
            | error e => exact hext
            | ok u => exact graphExtends_trans hext (ih _ _ gg1)

/-- `addNode` on a hashable node only appends, and on an unhashable node
raises without touching the graph. -/
theorem addNode_extends (g g' : Graph) (v : Val) (h : addNode g v = .ok g') :
    graphExtends g g' := by
  simp only [addNode] at h
  cases hv : hashable v <;> simp [hv] at h
  split at h <;> simp_all
  · subst h; exact graphExtends_refl _
  · subst h; exact ⟨⟨_, rfl⟩, ⟨[], by simp⟩⟩

/-- C5 amended: the dependency graph is validator-instance state that
accumulates: a `validate_dependencies` invocation only ever appends nodes
and edges to the existing graph and never rebuilds it, so graph contents
persist into subsequent invocations on the same validator; at the same
time, the value (report or exception) an invocation returns is determined
by the document and registry alone — it does not depend on the accumulated
graph, because every code path that reads the graph (cycle detection)
raises before producing a report. -/
theorem c5_graph_accumulates_and_result_ignores_it :
    ∀ (reg : List (String × Val)) (g g2 : Graph) (doc : Val),
    graphExtends g (validateDependencies reg g doc).2 ∧
    (validateDependencies reg g doc).1 = (validateDependencies reg g2 doc).1 := by
  intro reg g g2 doc
  constructor
  · simp only [validateDependencies]
    cases h1 : pyNotIn "dependsOn" doc with
    | error e => exact graphExtends_refl g
    | ok b1 =>
      cases b1 with
      | true => exact graphExtends_refl g
      | false =>
        dsimp only
        cases h2 : pySubscript doc "dependsOn" with
        | error e => exact graphExtends_refl g
        | ok deps =>
          dsimp only
          cases deps with
          | list ds =>
            dsimp only
            cases h3 : valGet doc "metadata" (.map []) with
            | error e => exact graphExtends_refl g
            | ok md =>
              dsimp only
              cases h4 : valGet md "name" (.str "unknown") with
              | error e => exact graphExtends_refl g
              | ok node =>
                dsimp only
                cases h5 : addNode g node with
                | error e => exact graphExtends_refl g
                | ok g1 =>
                  dsimp only
                  have hn := addNode_extends g g1 node h5
                  have hl := depLoop_extends reg node ds 0 depResultInit g1
                  rcases h6 : depLoop reg node ds 0 depResultInit g1 with ⟨f, gg⟩
                  rw [h6] at hl
                  cases f with
                  | error e => exact graphExtends_trans hn hl
                  | ok r =>
                    dsimp only
                    cases h7 : nxFindCycles with
                    | none => exact graphExtends_trans hn hl
                    | some fc =>
                      dsimp only
                      split <;> exact graphExtends_trans hn hl
          | null => exact graphExtends_refl g
          | bool b => exact graphExtends_refl g
          | int n => exact graphExtends_refl g
          | str s => exact graphExtends_refl g
          | map kvs => exact graphExtends_refl g
  · simp only [validateDependencies]
    cases h1 : pyNotIn "dependsOn" doc with
    | error e => rfl
    | ok b1 =>
      cases b1 with
      | true => rfl
      | false =>
        dsimp only
        cases h2 : pySubscript doc "dependsOn" with
        | error e => rfl
        | ok deps =>
          dsimp only
          cases deps with
          | list ds =>
            dsimp only
            cases h3 : valGet doc "metadata" (.map []) with
            | error e => rfl
            | ok md =>
              dsimp only
              cases h4 : valGet md "name" (.str "unknown") with
              | error e => rfl
              | ok node =>
                dsimp only
                cases hh : hashable node with
                | false =>
                  have e1 : addNode g node
                      = .error (.typeError s!"unhashable type: {sq}{typeName node}{sq}") := by
                    simp [addNode, hh]
                  have e2 : addNode g2 node
                      = .error (.typeError s!"unhashable type: {sq}{typeName node}{sq}") := by
                    simp [addNode, hh]
                  rw [e1, e2]
                | true =>
                  have e1 : addNode g node
                      = .ok (if nodeMem node g.nodes then g
                             else { g with nodes := g.nodes ++ [node] }) := by
                    simp [addNode, hh]
                  have e2 : addNode g2 node
                      = .ok (if nodeMem node g2.nodes then g2
                             else { g2 with nodes := g2.nodes ++ [node] }) := by
                    simp [addNode, hh]
                  rw [e1, e2]
                  dsimp only
                  have hfl := depLoop_fst_const reg node ds 0 depResultInit
                    (if nodeMem node g.nodes then g else { g with nodes := g.nodes ++ [node] })
                    (if nodeMem node g2.nodes then g2 else { g2 with nodes := g2.nodes ++ [node] })
                  rcases hq1 : depLoop reg node ds 0 depResultInit
                      (if nodeMem node g.nodes then g
                       else { g with nodes := g.nodes ++ [node] }) with ⟨f1, gg1⟩
                  rcases hq2 : depLoop reg node ds 0 depResultInit
                      (if nodeMem node g2.nodes then g2
                       else { g2 with nodes := g2.nodes ++ [node] }) with ⟨f2, gg2⟩
                  rw [hq1, hq2] at hfl
                  simp only at hfl
                  subst hfl
                  cases f1 with
                  | error e => rfl
                  | ok r => rfl
          | null => rfl
          | bool b => rfl
          | int n => rfl
          | str s => rfl
          | map kvs => rfl

/-- `statusOf` is monotone in strictness: a non-strict failure is an error
failure, which also fails strictly. -/
theorem statusOf_mono (e w : List String) (h : statusOf e w false = .failed) :
    statusOf e w true = .failed := by
  rcases e with _ | ⟨x, xs⟩ <;> rcases w with _ | ⟨y, ys⟩ <;> simp_all [statusOf]

/-- `statusOf` on an error-free, warning-carrying report: `warning` when not
strict, `failed` when strict. -/
theorem statusOf_warnings_split (w : List String) (hw : w ≠ []) :
    statusOf [] w false = .warning ∧ statusOf [] w true = .failed := by
  rcases w with _ | ⟨y, ys⟩
  · simp at hw
  · simp [statusOf]

/-- Whenever `validate_artifact_extended` completes, the status field of its
report is the `statusOf` of its merged error and warning lists. -/
theorem extStatusEq (reg : List (String × Val)) (g : Graph) (doc : Val) (strict : Bool)
    (r : ExtendedResult) (g' : Graph)
    (h : validateArtifactExtended reg g doc strict = (.ok r, g')) :
    r.status = statusOf r.errors r.warnings strict := by
  simp only [validateArtifactExtended] at h
  rcases h0 : validateDependencies reg g doc with ⟨f0, g2⟩
  rw [h0] at h
  cases f0 with
  | error e => simp at h
  | ok depR =>
    dsimp only at h
    cases h1 : validateSemanticConsistency doc with
    | error e => rw [h1] at h; simp at h
    | ok semR =>
      rw [h1] at h
      dsimp only at h
      cases h2 : validateNamingSpecifications doc with
      | error e => rw [h2] at h; simp at h
      | ok namR =>
        rw [h2] at h
        dsimp only at h
        cases h3 : valGet doc "dependsOn" (.list []) with
        | error e => rw [h3] at h; simp at h
        | ok depsV =>
          rw [h3] at h
          dsimp only at h
          cases h4 : pyLen depsV with
          | error e => rw [h4] at h; simp at h
          | ok depCount =>
            rw [h4] at h
            dsimp only at h
            cases h5 : valGet doc "endpoints" (.list []) with
            | error e => rw [h5] at h; simp at h
            | ok epV =>
              rw [h5] at h
              dsimp only at h
              cases h6 : pyLen epV with
              | error e => rw [h6] at h; simp at h
              | ok epCount =>
                rw [h6] at h
                dsimp only at h
                simp only [Prod.mk.injEq, Except.ok.injEq] at h
                obtain ⟨hr, hg⟩ := h
                subst hr
                rfl

/-- Running the pipeline strictly differs from running it non-strictly only
in the final status determination: every other field, and whether it
completes at all, is unchanged. -/
theorem extStrictShape (reg : List (String × Val)) (g : Graph) (doc : Val) :
    validateArtifactExtended reg g doc true =
      (match validateArtifactExtended reg g doc false with
       | (.error e, gg) => (.error e, gg)
       | (.ok r, gg) => (.ok { r with status := statusOf r.errors r.warnings true }, gg)) := by
  simp only [validateArtifactExtended]
  rcases h0 : validateDependencies reg g doc with ⟨f0, g2⟩
  cases f0 with
  | error e => rfl
  | ok depR =>
    dsimp only
    cases h1 : validateSemanticConsistency doc with
    | error e => rfl
    | ok semR =>
      dsimp only
      cases h2 : validateNamingSpecifications doc with
      | error e => rfl
      | ok namR =>
        dsimp only
        cases h3 : valGet doc "dependsOn" (.list []) with
        | error e => rfl
        | ok depsV =>
          dsimp only
          cases h4 : pyLen depsV with
          | error e => rfl
          | ok depCount =>
            dsimp only
            cases h5 : valGet doc "endpoints" (.list []) with
            | error e => rfl
            | ok epV =>
              dsimp only
              cases h6 : pyLen epV with
              | error e => rfl
              | ok epCount => rfl

/-- C3: for every parsed document on which validation completes, the overall
status computed by `validate_artifact_extended` is exactly: `failed` if the
merged error list is non-empty; otherwise `failed` if the merged warning
list is non-empty and strict mode is requested; otherwise `warning` if the
merged warning list is non-empty; otherwise `passed` (the content of
`statusOf`, applied to the report fields `errors` and `warnings`, which are
the merged lists). -/
theorem c3_final_status_formula (reg : List (String × Val)) (g : Graph) (doc : Val)
    (strict : Bool) (r : ExtendedResult) (g' : Graph)
    (h : validateArtifactExtended reg g doc strict = (.ok r, g')) :
    r.status = statusOf r.errors r.warnings strict :=
  extStatusEq reg g doc strict r g' h

/-- C3 witness: a concrete completing document. -/
theorem c3_final_status_formula_witness :
    completingRes.status = statusOf completingRes.errors completingRes.warnings false :=
  c3_final_status_formula [] emptyGraph completingDoc false completingRes completingG (by rfl)

/-- C6: strict mode is monotonic — if a document and registry yield `failed`
with strict mode off, the same inputs yield `failed` with strict mode on
(the strict run completes identically, with the same merged lists); and a
completed report with no errors but at least one warning receives status
`warning` non-strictly and `failed` strictly. -/
theorem c6_strict_mode_monotonic (reg : List (String × Val)) (g : Graph) (doc : Val)
    (r : ExtendedResult) (g' : Graph)
    (h : validateArtifactExtended reg g doc false = (.ok r, g')) :
    ∃ r', validateArtifactExtended reg g doc true = (.ok r', g') ∧
      r'.errors = r.errors ∧ r'.warnings = r.warnings ∧
      (r.status = .failed → r'.status = .failed) ∧
      (r.errors = [] → r.warnings ≠ [] →
        r.status = .warning ∧ r'.status = .failed) := by
  have h0 := extStatusEq reg g doc false r g' h
  refine ⟨{ r with status := statusOf r.errors r.warnings true }, ?_, rfl, rfl, ?_, ?_⟩
  · rw [extStrictShape, h]
  · intro hf
    rw [h0] at hf
    exact statusOf_mono _ _ hf
  · intro he hw
    have hs := statusOf_warnings_split r.warnings hw
    constructor
    · rw [h0, he]; exact hs.1
    · show statusOf r.errors r.warnings true = .failed
      rw [he]; exact hs.2

/-- C6 witness: the completing document completes in both modes; its merged
error list is non-empty, so both statuses are `failed` and the monotonicity
implication fires. -/
theorem c6_strict_mode_monotonic_witness :
    ∃ r', validateArtifactExtended [] emptyGraph completingDoc true = (.ok r', completingG) ∧
      r'.errors = completingRes.errors ∧ r'.warnings = completingRes.warnings ∧
      (completingRes.status = .failed → r'.status = .failed) ∧
      (completingRes.errors = [] → completingRes.warnings ≠ [] →
        completingRes.status = .warning ∧ r'.status = .failed) :=
  c6_strict_mode_monotonic [] emptyGraph completingDoc completingRes completingG (by rfl)

/-- C10: a successfully parsed document that is not a mapping (null from an
empty file, a top-level sequence, or a scalar) makes
`validate_artifact_extended` raise an uncaught exception instead of
returning a report: membership tests raise `TypeError` on null/bool/int
documents, subscription raises on strings and sequences that pass the
membership tests, and the performance-metrics call
`artifact.get("dependsOn", [])` raises `AttributeError` on every remaining
non-mapping document.  (The early single-error return covers only
exceptions raised while loading the file.) -/
theorem c10_non_mapping_documents_raise (reg : List (String × Val)) (g : Graph)
    (strict : Bool) (doc : Val) (h : isMapDoc doc = false) :
    ∃ e, (validateArtifactExtended reg g doc strict).1 = .error e := by
  cases doc with
  | map kvs => simp [isMapDoc] at h
  | null => exact ⟨_, rfl⟩
  | bool b => exact ⟨_, rfl⟩
  | int n => exact ⟨_, rfl⟩
  | str s =>
    by_cases hd : hasSubstr "dependsOn" s
    · have e1 : validateDependencies reg g (.str s)
          = (.error (.typeError "string indices must be integers"), g) := by
        simp [validateDependencies, pyNotIn, pyIn, hd, pySubscript, Except.map]
      refine ⟨.typeError "string indices must be integers", ?_⟩
      simp [validateArtifactExtended, e1]
    · have e1 : validateDependencies reg g (.str s) = (.ok depResultInit, g) := by
        simp [validateDependencies, pyNotIn, pyIn, hd, Except.map]
      by_cases hm : hasSubstr "metadata" s
      · have e2 : validateSemanticConsistency (.str s)
            = .error (.typeError "string indices must be integers") := by
          simp [validateSemanticConsistency, pyNotIn, pyIn, hm, pySubscript, Except.map]
        refine ⟨.typeError "string indices must be integers", ?_⟩
        simp [validateArtifactExtended, e1, e2]
      · have e2 : validateSemanticConsistency (.str s)
            = .ok ⟨false, ["Missing semanticType in metadata"], [], [], []⟩ := by
          simp [validateSemanticConsistency, pyNotIn, pyIn, hm, Except.map]
        have e3 : validateNamingSpecifications (.str s)
            = .ok ⟨false, ["Missing metadata"], [], none, none, none⟩ := by
          simp [validateNamingSpecifications, pyNotIn, pyIn, hm, Except.map]
        refine ⟨.attributeError s!"{sq}str{sq} object has no attribute {sq}get{sq}", ?_⟩
        simp [validateArtifactExtended, e1, e2, e3, valGet, typeName]
        rfl
  | list xs =>
    by_cases hd : (xs.any fun x => pyEqStr x "dependsOn") = true
    · have e1 : validateDependencies reg g (.list xs)
          = (.error (.typeError "list indices must be integers or slices, not str"), g) := by
        simp [validateDependencies, pyNotIn, pyIn, hd, pySubscript, Except.map]
      refine ⟨.typeError "list indices must be integers or slices, not str", ?_⟩
      simp [validateArtifactExtended, e1]
    · have e1 : validateDependencies reg g (.list xs) = (.ok depResultInit, g) := by
        simp [validateDependencies, pyNotIn, pyIn, hd, Except.map]
      by_cases hm : (xs.any fun x => pyEqStr x "metadata") = true
      · have e2 : validateSemanticConsistency (.list xs)
            = .error (.typeError "list indices must be integers or slices, not str") := by
          simp [validateSemanticConsistency, pyNotIn, pyIn, hm, pySubscript, Except.map]
        refine ⟨.typeError "list indices must be integers or slices, not str", ?_⟩
        simp [validateArtifactExtended, e1, e2]
      · have e2 : validateSemanticConsistency (.list xs)
            = .ok ⟨false, ["Missing semanticType in metadata"], [], [], []⟩ := by
          simp [validateSemanticConsistency, pyNotIn, pyIn, hm, Except.map]
        have e3 : validateNamingSpecifications (.list xs)
            = .ok ⟨false, ["Missing metadata"], [], none, none, none⟩ := by
          simp [validateNamingSpecifications, pyNotIn, pyIn, hm, Except.map]
        refine ⟨.attributeError s!"{sq}list{sq} object has no attribute {sq}get{sq}", ?_⟩
        simp [validateArtifactExtended, e1, e2, e3, valGet, typeName]
        rfl

/-- C10 witness: the null document (an empty file) raises. -/
theorem c10_non_mapping_documents_raise_witness :
    ∃ e, (validateArtifactExtended [] emptyGraph Val.null false).1 = .error e :=
  c10_non_mapping_documents_raise [] emptyGraph false Val.null rfl

/-- A successful association-list lookup implies the key test succeeds. -/
theorem lookup_to_any {kvs : List (String × Val)} {k : String} {v : Val}
    (h : kvs.lookup k = some v) : (kvs.any fun kv => kv.1 == k) = true := by
  induction kvs with
  | nil => exact absurd h (by simp)
  | cons kv rest ih =>
    rcases kv with ⟨a, b⟩
    by_cases hk : a = k
    · subst hk; simp
    · have hb : (k == a) = false := by simp [Ne.symm hk]
      simp only [List.lookup, hb] at h
      simp only [List.any_cons]
      rw [ih h]
      simp

/-- A successful key test yields a lookup value. -/
theorem any_to_lookup {kvs : List (String × Val)} {k : String}
    (h : (kvs.any fun kv => kv.1 == k) = true) : ∃ v, kvs.lookup k = some v := by
  induction kvs with
  | nil => simp at h
  | cons kv rest ih =>
    rcases kv with ⟨a, b⟩
    by_cases hk : a = k
    · subst hk; exact ⟨b, by simp [List.lookup]⟩
    · have hb : (k == a) = false := by simp [Ne.symm hk]
      have ha : (a == k) = false := by simp [hk]
      simp only [List.any_cons, ha, Bool.false_or] at h
      obtain ⟨v, hv⟩ := ih h
      exact ⟨v, by simp [List.lookup, hb, hv]⟩

/-- A failed key test means the lookup misses. -/
theorem any_false_lookup_none {kvs : List (String × Val)} {k : String}
    (h : (kvs.any fun kv => kv.1 == k) = false) : kvs.lookup k = none := by
  induction kvs with
  | nil => rfl
  | cons kv rest ih =>
    rcases kv with ⟨a, b⟩
    simp only [List.any_cons, Bool.or_eq_false_iff] at h
    have hb : (k == a) = false := by
      rcases h with ⟨h1, _⟩
      simp only [beq_eq_false_iff_ne] at h1 ⊢
      exact Ne.symm h1
    simp [List.lookup, hb, ih h.2]

/-- C8: for a `metadata.namingRegistry` whose `namespace` value is the
string `s`: if `s` matches none of the configured prefix patterns
(`io.github.*`, `com.*`, `org.*`), `_validate_naming_registry` returns
`valid=false` with the `Invalid namespace format` error; if `s` matches a
verification-required prefix pattern (all configured patterns require
verification) while `verificationStatus` is absent or not `verified`, it
records a warning and no error for it — the errors list and the `valid`
flag are exactly those of the independent `format` check. -/
theorem c8_namespace_validation (nr : List (String × Val)) (s : String)
    (hns : nr.lookup "namespace" = some (.str s)) :
    ((namespaceFormats.any fun p => p.matcher s) = false →
      ∃ r, validateNamingRegistry (.map nr) = .ok r ∧ r.valid = false ∧
        s!"Invalid namespace format: {s}" ∈ r.errors) ∧
    ((namespaceFormats.any fun p => p.matcher s) = true →
      (∀ v, nr.lookup "verificationStatus" = some v → pyEqStr v "verified" = false) →
      ∃ r, validateNamingRegistry (.map nr) = .ok r ∧
        r.warnings ≠ [] ∧
        r.errors = (if pyNeStr ((nr.lookup "format").getD .null) "reverse-DNS"
                    then [s!"Naming registry format must be {sq}reverse-DNS{sq}"] else []) ∧
        r.valid = !(pyNeStr ((nr.lookup "format").getD .null) "reverse-DNS")) := by
  constructor
  · intro hno
    have hfind : namespaceFormats.find? (fun p => p.matcher s) = none := by
      rw [List.find?_eq_none]
      intro x hx
      simp only [List.any_eq_false] at hno
      simpa using hno x hx
    refine ⟨⟨false,
        (if pyNeStr ((nr.lookup "format").getD .null) "reverse-DNS"
         then [s!"Naming registry format must be {sq}reverse-DNS{sq}"] else [])
          ++ [s!"Invalid namespace format: {s}"], []⟩, ?_, rfl, by simp⟩
    simp only [validateNamingRegistry, valGet, hns, Option.getD_some]
    rw [hfind]
  · intro hyes hv
    have hsome : ∃ p, namespaceFormats.find? (fun q => q.matcher s) = some p ∧
        p.verification_required = true := by
      by_cases m1 : matchNsGithub s = true
      · exact ⟨⟨matchNsGithub, true⟩, by simp [namespaceFormats, List.find?, m1], rfl⟩
      · by_cases m2 : matchNsCom s = true
        · exact ⟨⟨matchNsCom, true⟩, by simp [namespaceFormats, List.find?, m1, m2], rfl⟩
        · by_cases m3 : matchNsOrg s = true
          · exact ⟨⟨matchNsOrg, true⟩, by simp [namespaceFormats, List.find?, m1, m2, m3], rfl⟩
          · exact absurd hyes (by simp [namespaceFormats, m1, m2, m3])
    obtain ⟨p, hp, hpv⟩ := hsome
    by_cases hk : (nr.any fun kv => kv.1 == "verificationStatus") = true
    · obtain ⟨v, hvv⟩ := any_to_lookup hk
      have hne : pyNeStr v "verified" = true := by
        simp [pyNeStr, hv v hvv]
      refine ⟨⟨!(pyNeStr ((nr.lookup "format").getD .null) "reverse-DNS"),
          (if pyNeStr ((nr.lookup "format").getD .null) "reverse-DNS"
           then [s!"Naming registry format must be {sq}reverse-DNS{sq}"] else []),
          [s!"Namespace {s} is not verified"]⟩, ?_, by simp, rfl, rfl⟩
      simp only [validateNamingRegistry, valGet, hns, Option.getD_some, hp, mapHasKey,
        hpv, hk, hvv, hne, Bool.not_true, if_true, if_false, ite_true, ite_false]
      rfl
    · have hkf : (nr.any fun kv => kv.1 == "verificationStatus") = false := by
        rw [Bool.not_eq_true] at hk; exact hk
      refine ⟨⟨!(pyNeStr ((nr.lookup "format").getD .null) "reverse-DNS"),
          (if pyNeStr ((nr.lookup "format").getD .null) "reverse-DNS"
           then [s!"Naming registry format must be {sq}reverse-DNS{sq}"] else []),
          [s!"Namespace {s} requires verification"]⟩, ?_, by simp, rfl, rfl⟩
      simp only [validateNamingRegistry, valGet, hns, Option.getD_some, hp, mapHasKey,
        hpv, hkf, Bool.not_true, Bool.not_false, if_true, if_false, ite_true, ite_false]

/-- C8 witness: a non-matching namespace yields the format error, and an
unverified `com.*` namespace yields a warning without a namespace error. -/
theorem c8_namespace_validation_witness :
    (∃ r, validateNamingRegistry (.map nrInvalidNs) = .ok r ∧ r.valid = false ∧
      s!"Invalid namespace format: invalid-namespace" ∈ r.errors) ∧
    (∃ r, validateNamingRegistry (.map nrComNs) = .ok r ∧
      r.warnings ≠ [] ∧
      r.errors = (if pyNeStr ((nrComNs.lookup "format").getD .null) "reverse-DNS"
                  then [s!"Naming registry format must be {sq}reverse-DNS{sq}"] else []) ∧
      r.valid = !(pyNeStr ((nrComNs.lookup "format").getD .null) "reverse-DNS")) :=
  ⟨(c8_namespace_validation nrInvalidNs "invalid-namespace" rfl).1 (by decide),
   (c8_namespace_validation nrComNs "com.example" rfl).2 (by decide)
     (fun v h => nomatch h)⟩

/-- On a `dependsOn` list whose entries are mappings, the relationship loop
completes and returns exactly one violation message per entry whose
`semanticType` is not an allowed dependency type. -/
theorem relLoop_maps (allowed : List String) (t : String) :
    ∀ deps : List Val, (∀ d ∈ deps, ∃ dk, d = .map dk) →
    relLoop allowed t deps = .ok (relMessages allowed t deps) := by
  intro deps
  induction deps with
  | nil => intro _; rfl
  | cons d rest ih =>
    intro hall
    obtain ⟨dk, hdk⟩ := hall d (by simp)
    subst hdk
    have hrest := ih fun x hx => hall x (by simp [hx])
    by_cases hk : (dk.any fun kv => kv.1 == "semanticType") = true
    · obtain ⟨dt, hdt⟩ := any_to_lookup hk
      simp only [relLoop, pyIn, hk, pySubscript, hdt, hrest]
      cases dt with
      | str x =>
        by_cases hc : allowed.contains x = true
        · have hcm : x ∈ allowed := by simpa using hc
          simp [relMessages, hdt, hc, hcm]
        · simp only [Bool.not_eq_true] at hc
          have hcm : x ∉ allowed := by simpa using hc
          simp [relMessages, relMsg, hdt, hc, hcm]
      | null => simp [relMessages, relMsg, hdt]
      | bool b => simp [relMessages, relMsg, hdt]
      | int n => simp [relMessages, relMsg, hdt]
      | list xs => simp [relMessages, relMsg, hdt]
      | map kvs2 => simp [relMessages, relMsg, hdt]
    · have hkf : (dk.any fun kv => kv.1 == "semanticType") = false := by
        rw [Bool.not_eq_true] at hk; exact hk
      have hnone := any_false_lookup_none hkf
      simp only [relLoop, pyIn, hkf, hrest]
      simp [relMessages, hnone]

/-- C9: for an artifact with a valid declared `semanticType` and a
`dependsOn` list of mapping entries, the semantic validator completes with:
`errors` and `type_violations` equal to the schema violations alone,
`warnings` and `relationship_violations` equal to the per-entry
disallowed-`semanticType` messages (`relMessages`), and `valid` determined
solely by the schema violations — so relationship violations are warnings,
never errors, and alone never make the result invalid. -/
theorem c9_relationship_violations_are_warnings
    (kvs md : List (String × Val)) (t : String) (deps : List Val)
    (h1 : kvs.lookup "metadata" = some (.map md))
    (h2 : md.lookup "semanticType" = some (.str t))
    (h3 : ((semanticTypeSchemas.map Prod.fst).any fun k => k == t) = true)
    (h4 : kvs.lookup "dependsOn" = some (.list deps))
    (h5 : ∀ d ∈ deps, ∃ dk, d = .map dk) :
    validateSemanticConsistency (.map kvs) =
      .ok ⟨(validateAgainstSemanticSchema kvs t).isEmpty,
           validateAgainstSemanticSchema kvs t,
           relMessages (((semanticTypeSchemas.lookup t).getD ⟨[], [], []⟩).can_depend_on) t deps,
           validateAgainstSemanticSchema kvs t,
           relMessages (((semanticTypeSchemas.lookup t).getD ⟨[], [], []⟩).can_depend_on) t deps⟩ := by
  have hmd := lookup_to_any h1
  have hst := lookup_to_any h2
  have hdep := lookup_to_any h4
  have hrel : validateSemanticRelationships kvs t =
      .ok (relMessages (((semanticTypeSchemas.lookup t).getD ⟨[], [], []⟩).can_depend_on) t deps) := by
    simp only [validateSemanticRelationships, hdep, h4, pyIterate, if_true, ite_true]
    exact relLoop_maps _ t deps h5
  simp only [validateSemanticConsistency, pyNotIn, pyIn, hmd, Except.map, Bool.not_true,
    pySubscript, h1, hst, h2, pyInStrKeys, hashable, Bool.not_false, if_true, if_false,
    ite_true, ite_false, h3, hdep, hrel]
  rfl

/-- C9 witness: the manifest artifact with one disallowed dependency type
completes with that violation as a warning only. -/
theorem c9_relationship_violations_are_warnings_witness :
    validateSemanticConsistency (.map c9kvs) =
      .ok ⟨(validateAgainstSemanticSchema c9kvs "manifest").isEmpty,
           validateAgainstSemanticSchema c9kvs "manifest",
           relMessages (((semanticTypeSchemas.lookup "manifest").getD ⟨[], [], []⟩).can_depend_on)
             "manifest" c9deps,
           validateAgainstSemanticSchema c9kvs "manifest",
           relMessages (((semanticTypeSchemas.lookup "manifest").getD ⟨[], [], []⟩).can_depend_on)
             "manifest" c9deps⟩ :=
  c9_relationship_violations_are_warnings c9kvs c9md "manifest" c9deps rfl rfl (by decide) rfl
    (by intro d hd
        simp only [c9deps, List.mem_singleton] at hd
        exact ⟨_, hd⟩)

/-- Characterization of the `[cl]+`-to-end acceptor. -/
theorem plusEnd_iff (cl : Char → Bool) : ∀ (cs : List Char) (seen : Bool),
    plusEnd cl cs seen = true ↔ ((∀ c ∈ cs, cl c = true) ∧ (seen = true ∨ cs ≠ [])) := by
  intro cs
  induction cs with
  | nil => intro seen; simp [plusEnd]
  | cons c cs ih =>
    intro seen
    cases hc : cl c with
    | false =>
      simp only [plusEnd, hc, Bool.false_eq_true, if_false, ite_false]
      constructor
      · intro h; exact absurd h (by simp)
      · rintro ⟨hall, _⟩
        exact absurd (hall c (by simp)) (by simp [hc])
    | true =>
      simp only [plusEnd, hc, if_true, ite_true]
      rw [ih true]
      constructor
      · rintro ⟨hall, _⟩
        refine ⟨?_, Or.inr (by simp)⟩
        intro x hx
        rcases List.mem_cons.mp hx with h | h
        · subst h; exact hc
        · exact hall x h
      · rintro ⟨hall, _⟩
        exact ⟨fun x hx => hall x (List.mem_cons_of_mem _ hx), Or.inl rfl⟩

/-- Characterization of the `[cl]+ sep` acceptor with continuation `k`, when
the separator lies outside the class: the input decomposes uniquely into a
non-empty class run, the separator, and a continuation-accepted rest. -/
theorem plusThen_iff (cl : Char → Bool) (sep : Char) (k : List Char → Bool)
    (hsep : cl sep = false) : ∀ (cs : List Char) (seen : Bool),
    plusThen cl sep k cs seen = true ↔
      ∃ pre post, cs = pre ++ sep :: post ∧ (∀ c ∈ pre, cl c = true) ∧
        (seen = true ∨ pre ≠ []) ∧ k post = true := by
  intro cs
  induction cs with
  | nil =>
    intro seen
    simp only [plusThen]
    constructor
    · intro h; exact absurd h (by simp)
    · rintro ⟨pre, post, h, _⟩
      exact absurd h (by cases pre <;> simp)
  | cons c cs ih =>
    intro seen
    by_cases hc : cl c = true
    · have hcsep : c ≠ sep := by
        intro h; rw [h, hsep] at hc; exact Bool.noConfusion hc
      simp only [plusThen, hc, if_true, ite_true]
      rw [ih true]
      constructor
      · rintro ⟨pre, post, hsplit, hpre, _, hk⟩
        refine ⟨c :: pre, post, by simp [hsplit], ?_, Or.inr (by simp), hk⟩
        intro x hx
        rcases List.mem_cons.mp hx with h | h
        · subst h; exact hc
        · exact hpre x h
      · rintro ⟨pre, post, hsplit, hpre, hor, hk⟩
        cases pre with
        | nil =>
          simp only [List.nil_append, List.cons.injEq] at hsplit
          exact absurd hsplit.1 hcsep
        | cons p pre2 =>
          simp only [List.cons_append, List.cons.injEq] at hsplit
          obtain ⟨hcp, hrest⟩ := hsplit
          subst hcp
          exact ⟨pre2, post, hrest,
            fun x hx => hpre x (List.mem_cons_of_mem _ hx), Or.inl rfl, hk⟩
    · have hcb : cl c = false := by rw [Bool.not_eq_true] at hc; exact hc
      cases hcond : (c == sep && seen) with
      | true =>
        obtain ⟨hceq, hseen⟩ := Bool.and_eq_true_iff.mp hcond
        have hcs : c = sep := by simpa using hceq
        subst hcs
        simp only [plusThen, hcb, Bool.false_eq_true, if_false, ite_false, hcond, if_true,
          ite_true]
        constructor
        · intro hk
          exact ⟨[], cs, by simp, by simp, Or.inl hseen, hk⟩
        · rintro ⟨pre, post, hsplit, hpre, hor, hk⟩
          cases pre with
          | nil =>
            simp only [List.nil_append, List.cons.injEq] at hsplit
            rw [hsplit.2]
            exact hk
          | cons p pre2 =>
            simp only [List.cons_append, List.cons.injEq] at hsplit
            have hclp := hpre p (by simp)
            rw [← hsplit.1] at hclp
            rw [hclp] at hcb
            exact Bool.noConfusion hcb
      | false =>
        simp only [plusThen, hcb, Bool.false_eq_true, if_false, ite_false, hcond]
        constructor
        · intro h; exact absurd h (by simp)
        · rintro ⟨pre, post, hsplit, hpre, hor, hk⟩
          cases pre with
          | nil =>
            simp only [List.nil_append, List.cons.injEq] at hsplit
            rcases hor with hseen | hne
            · rw [Bool.and_eq_false_iff] at hcond
              rcases hcond with h1 | h1
              · rw [hsplit.1] at h1; simp at h1
              · rw [hseen] at h1; exact Bool.noConfusion h1
            · exact hne rfl
          | cons p pre2 =>
            simp only [List.cons_append, List.cons.injEq] at hsplit
            have hclp := hpre p (by simp)
            rw [← hsplit.1] at hclp
            rw [hclp] at hcb
            exact Bool.noConfusion hcb

/-- The source namespace character class agrees with the grammar wording. -/
theorem nsChar_iff (c : Char) : nsChar c = true ↔ specNsChar c := by
  simp [nsChar, specNsChar, Bool.or_eq_true, or_assoc]

/-- The source name character class agrees with the grammar wording. -/
theorem nameChar_iff (c : Char) : nameChar c = true ↔ specNameChar c := by
  simp [nameChar, specNameChar, Bool.or_eq_true, or_assoc]

/-- Resolve the `seen`-disjunct of a top-level acceptor run. -/
theorem resolveSeen {p : Prop} (h : false = true ∨ p) : p := by
  rcases h with h | h
  · exact Bool.noConfusion h
  · exact h

/-- The semantic-version acceptor accepts exactly the three-part versions
over Unicode decimal digits. -/
theorem semverList_iff (v : List Char) : semverList v = true ↔ specVersionCharsPy v := by
  unfold semverList specVersionCharsPy
  rw [plusThen_iff _ _ _ (by decide)]
  constructor
  · rintro ⟨a, r2, hv, ha, hane, hk⟩
    rw [plusThen_iff _ _ _ (by decide)] at hk
    obtain ⟨b, r3, hr2, hb, hbne, hk3⟩ := hk
    rw [plusEnd_iff] at hk3
    obtain ⟨hc3, hcne⟩ := hk3
    exact ⟨a, b, r3, by rw [hv, hr2], resolveSeen hane, resolveSeen hbne,
      resolveSeen hcne, ha, hb, hc3⟩
  · rintro ⟨a, b, c, hv, hane, hbne, hcne, ha, hb, hc⟩
    refine ⟨a, b ++ '.' :: c, hv, ha, Or.inr hane, ?_⟩
    rw [plusThen_iff _ _ _ (by decide)]
    refine ⟨b, c, rfl, hb, Or.inr hbne, ?_⟩
    rw [plusEnd_iff]
    exact ⟨hc, Or.inr hcne⟩

/-- The ASCII-digit version acceptor decides the claim's version grammar
as stated. -/
theorem asciiSemverList_iff (v : List Char) :
    asciiSemverList v = true ↔ specVersionChars v := by
  unfold asciiSemverList specVersionChars
  rw [plusThen_iff _ _ _ (by decide)]
  constructor
  · rintro ⟨a, r2, hv, ha, hane, hk⟩
    rw [plusThen_iff _ _ _ (by decide)] at hk
    obtain ⟨b, r3, hr2, hb, hbne, hk3⟩ := hk
    rw [plusEnd_iff] at hk3
    obtain ⟨hc3, hcne⟩ := hk3
    exact ⟨a, b, r3, by rw [hv, hr2], resolveSeen hane, resolveSeen hbne,
      resolveSeen hcne, ha, hb, hc3⟩
  · rintro ⟨a, b, c, hv, hane, hbne, hcne, ha, hb, hc⟩
    refine ⟨a, b ++ '.' :: c, hv, ha, Or.inr hane, ?_⟩
    rw [plusThen_iff _ _ _ (by decide)]
    refine ⟨b, c, rfl, hb, Or.inr hbne, ?_⟩
    rw [plusEnd_iff]
    exact ⟨hc, Or.inr hcne⟩

/-- Over a character list, the two source patterns together accept exactly
the reference-body grammar (Unicode digits in the version part). -/
theorem refBody_iff (cs : List Char) :
    (refPlainList cs || refVersionList cs) = true ↔ refBodyGrammarPy cs := by
  have h1 : refPlainList cs = true ↔
      (∃ ns nm, cs = ns ++ '/' :: nm ∧
        ns ≠ [] ∧ (∀ c ∈ ns, specNsChar c) ∧ nm ≠ [] ∧ (∀ c ∈ nm, specNameChar c)) := by
    unfold refPlainList
    rw [plusThen_iff _ _ _ (by decide)]
    constructor
    · rintro ⟨ns, nm, hsplit, hns, hnsne, hk⟩
      rw [plusEnd_iff] at hk
      exact ⟨ns, nm, hsplit, resolveSeen hnsne,
        fun c hc => (nsChar_iff c).mp (hns c hc), resolveSeen hk.2,
        fun c hc => (nameChar_iff c).mp (hk.1 c hc)⟩
    · rintro ⟨ns, nm, hsplit, hnsne, hns, hnmne, hnm⟩
      refine ⟨ns, nm, hsplit, fun c hc => (nsChar_iff c).mpr (hns c hc), Or.inr hnsne, ?_⟩
      rw [plusEnd_iff]
      exact ⟨fun c hc => (nameChar_iff c).mpr (hnm c hc), Or.inr hnmne⟩
  have h2 : refVersionList cs = true ↔
      (∃ ns nm v, cs = ns ++ '/' :: (nm ++ ':' :: v) ∧
        ns ≠ [] ∧ (∀ c ∈ ns, specNsChar c) ∧ nm ≠ [] ∧ (∀ c ∈ nm, specNameChar c) ∧
        specVersionCharsPy v) := by
    unfold refVersionList
    rw [plusThen_iff _ _ _ (by decide)]
    constructor
    · rintro ⟨ns, post, hsplit, hns, hnsne, hk⟩
      rw [plusThen_iff _ _ _ (by decide)] at hk
      obtain ⟨nm, v, hpost, hnm, hnmne, hv⟩ := hk
      rw [hpost] at hsplit
      exact ⟨ns, nm, v, hsplit, resolveSeen hnsne,
        fun c hc => (nsChar_iff c).mp (hns c hc), resolveSeen hnmne,
        fun c hc => (nameChar_iff c).mp (hnm c hc), (semverList_iff v).mp hv⟩
    · rintro ⟨ns, nm, v, hsplit, hnsne, hns, hnmne, hnm, hv⟩
      refine ⟨ns, nm ++ ':' :: v, hsplit,
        fun c hc => (nsChar_iff c).mpr (hns c hc), Or.inr hnsne, ?_⟩
      rw [plusThen_iff _ _ _ (by decide)]
      exact ⟨nm, v, rfl, fun c hc => (nameChar_iff c).mpr (hnm c hc), Or.inr hnmne,
        (semverList_iff v).mpr hv⟩
  unfold refBodyGrammarPy
  rw [Bool.or_eq_true, h1, h2]

/-- The decision procedure `grammarRefAccept` decides the claim's grammar
as stated (strict end of input, ASCII version digits). -/
theorem grammarRefAccept_iff (s : String) :
    grammarRefAccept s = true ↔ specReferenceGrammar s := by
  have h1 : plusThen nsChar '/' (fun post => plusEnd nameChar post false) s.data false = true ↔
      (∃ ns nm, s.data = ns ++ '/' :: nm ∧
        ns ≠ [] ∧ (∀ c ∈ ns, specNsChar c) ∧ nm ≠ [] ∧ (∀ c ∈ nm, specNameChar c)) := by
    rw [plusThen_iff _ _ _ (by decide)]
    constructor
    · rintro ⟨ns, nm, hsplit, hns, hnsne, hk⟩
      rw [plusEnd_iff] at hk
      exact ⟨ns, nm, hsplit, resolveSeen hnsne,
        fun c hc => (nsChar_iff c).mp (hns c hc), resolveSeen hk.2,
        fun c hc => (nameChar_iff c).mp (hk.1 c hc)⟩
    · rintro ⟨ns, nm, hsplit, hnsne, hns, hnmne, hnm⟩
      refine ⟨ns, nm, hsplit, fun c hc => (nsChar_iff c).mpr (hns c hc), Or.inr hnsne, ?_⟩
      rw [plusEnd_iff]
      exact ⟨fun c hc => (nameChar_iff c).mpr (hnm c hc), Or.inr hnmne⟩
  have h2 : plusThen nsChar '/'
      (fun post => plusThen nameChar ':' (fun v => asciiSemverList v) post false)
      s.data false = true ↔
      (∃ ns nm v, s.data = ns ++ '/' :: (nm ++ ':' :: v) ∧
        ns ≠ [] ∧ (∀ c ∈ ns, specNsChar c) ∧ nm ≠ [] ∧ (∀ c ∈ nm, specNameChar c) ∧
        specVersionChars v) := by
    rw [plusThen_iff _ _ _ (by decide)]
    constructor
    · rintro ⟨ns, post, hsplit, hns, hnsne, hk⟩
      rw [plusThen_iff _ _ _ (by decide)] at hk
      obtain ⟨nm, v, hpost, hnm, hnmne, hv⟩ := hk
      rw [hpost] at hsplit
      exact ⟨ns, nm, v, hsplit, resolveSeen hnsne,
        fun c hc => (nsChar_iff c).mp (hns c hc), resolveSeen hnmne,
        fun c hc => (nameChar_iff c).mp (hnm c hc), (asciiSemverList_iff v).mp hv⟩
    · rintro ⟨ns, nm, v, hsplit, hnsne, hns, hnmne, hnm, hv⟩
      refine ⟨ns, nm ++ ':' :: v, hsplit,
        fun c hc => (nsChar_iff c).mpr (hns c hc), Or.inr hnsne, ?_⟩
      rw [plusThen_iff _ _ _ (by decide)]
      exact ⟨nm, v, rfl, fun c hc => (nameChar_iff c).mpr (hnm c hc), Or.inr hnmne,
        (asciiSemverList_iff v).mpr hv⟩
  unfold grammarRefAccept specReferenceGrammar
  rw [Bool.or_eq_true, h1, h2]

/-- Stripping at most one trailing newline either leaves the list
unchanged or removes exactly one final newline. -/
theorem dropNl_spec (cs : List Char) :
    dropTrailingNl cs = cs ∨ cs = dropTrailingNl cs ++ ['\n'] := by
  induction cs with
  | nil => exact Or.inl rfl
  | cons c cs ih =>
    cases cs with
    | nil =>
      by_cases h : c = '\n'
      · subst h
        exact Or.inr rfl
      · left
        simp [dropTrailingNl, h]
    | cons c2 cs2 =>
      rcases ih with h | h
      · left
        have e : dropTrailingNl (c :: c2 :: cs2) = c :: dropTrailingNl (c2 :: cs2) := rfl
        rw [e, h]
      · right
        have e : dropTrailingNl (c :: c2 :: cs2) = c :: dropTrailingNl (c2 :: cs2) := rfl
        rw [e, List.cons_append]
        exact congrArg (List.cons c) h

/-- Stripping the trailing newline from a body-plus-newline list yields
the body. -/
theorem dropNl_concat (b : List Char) : dropTrailingNl (b ++ ['\n']) = b := by
  induction b with
  | nil => rfl
  | cons c cs ih =>
    cases cs with
    | nil => rfl
    | cons c2 cs2 =>
      have e : dropTrailingNl ((c :: c2 :: cs2) ++ ['\n'])
          = c :: dropTrailingNl ((c2 :: cs2) ++ ['\n']) := rfl
      rw [e, ih]

/-- A list ending in a non-newline character is unchanged by the trailing
newline strip. -/
theorem dropNl_last_ne (b : List Char) (c : Char) (h : c ≠ '\n') :
    dropTrailingNl (b ++ [c]) = b ++ [c] := by
  induction b with
  | nil =>
    simp [dropTrailingNl, h]
  | cons x xs ih =>
    cases xs with
    | nil =>
      have e : dropTrailingNl ([x] ++ [c]) = x :: dropTrailingNl [c] := rfl
      rw [e]
      simp [dropTrailingNl, h]
    | cons x2 xs2 =>
      have e : dropTrailingNl ((x :: x2 :: xs2) ++ [c])
          = x :: dropTrailingNl ((x2 :: xs2) ++ [c]) := rfl
      rw [e, ih]
      rfl

/-- A reference-grammar body never ends in a newline (its last character
is a name character or a decimal digit), so the trailing-newline strip
leaves it unchanged. -/
theorem dropNl_of_body (cs : List Char) (h : refBodyGrammarPy cs) :
    dropTrailingNl cs = cs := by
  rcases h with ⟨ns, nm, hsplit, _, _, hnmne, hnm⟩ | ⟨ns, nm, v, hsplit, _, _, _, _, hv⟩
  · rcases List.eq_nil_or_concat nm with h0 | ⟨nm0, last, h0⟩
    · exact absurd h0 hnmne
    · subst h0
      have hlast : specNameChar last := hnm last (by simp [List.concat_eq_append])
      have hne : last ≠ '\n' := by
        rcases hlast with h1 | h1 | h1
        · intro he; rw [he] at h1; exact absurd h1 (by decide)
        · intro he; rw [he] at h1; exact absurd h1 (by decide)
        · intro he; rw [he] at h1; exact absurd h1 (by decide)
      have hform : cs = (ns ++ '/' :: nm0) ++ [last] := by
        rw [hsplit]
        simp [List.concat_eq_append]
      rw [hform]
      exact dropNl_last_ne _ _ hne
  · obtain ⟨a, b, c, hveq, _, _, hcne, _, _, hc⟩ := hv
    rcases List.eq_nil_or_concat c with h0 | ⟨c0, last, h0⟩
    · exact absurd h0 hcne
    · subst h0
      have hlast : pyDigit last = true := hc last (by simp [List.concat_eq_append])
      have hne : last ≠ '\n' := by
        intro he
        rw [he] at hlast
        exact absurd hlast (by decide)
      have hform : cs = (ns ++ '/' :: (nm ++ ':' :: (a ++ '.' :: (b ++ '.' :: c0)))) ++ [last] := by
        rw [hsplit, hveq]
        simp [List.concat_eq_append]
      rw [hform]
      exact dropNl_last_ne _ _ hne

/-- The source reference matcher accepts exactly the Python-semantics
reference grammar: a grammar body optionally followed by one trailing
newline. -/
theorem refFormatPy_iff (s : String) :
    isValidReferenceFormat s = true ↔ specReferenceGrammarPy s := by
  have hbody := refBody_iff (dropTrailingNl s.data)
  unfold isValidReferenceFormat matchRefPlain matchRefVersion specReferenceGrammarPy
  rw [hbody]
  constructor
  · intro h
    rcases dropNl_spec s.data with he | he
    · exact Or.inl (he ▸ h)
    · exact Or.inr ⟨dropTrailingNl s.data, he, h⟩
  · rintro (h | ⟨b, hb, h⟩)
    · rw [dropNl_of_body _ h]
      exact h
    · rw [hb, dropNl_concat]
      exact h

/-- The claim's grammar as stated is contained in the Python-semantics
grammar (an ASCII digit is a Unicode decimal digit, and the empty trailing
newline is allowed). -/
theorem grammar_sub_py (s : String) (h : specReferenceGrammar s) :
    specReferenceGrammarPy s := by
  left
  rcases h with ⟨ns, nm, hsplit, h1, h2, h3, h4⟩ | ⟨ns, nm, v, hsplit, h1, h2, h3, h4, hv⟩
  · exact Or.inl ⟨ns, nm, hsplit, h1, h2, h3, h4⟩
  · refine Or.inr ⟨ns, nm, v, hsplit, h1, h2, h3, h4, ?_⟩
    obtain ⟨a, b, c, hveq, ha, hb, hc, hda, hdb, hdc⟩ := hv
    exact ⟨a, b, c, hveq, ha, hb, hc,
      fun x hx => by simp [pyDigit, hda x hx],
      fun x hx => by simp [pyDigit, hdb x hx],
      fun x hx => by simp [pyDigit, hdc x hx]⟩

/-- Broken references accumulate in document order through the reference
loop. -/
theorem refLoop_broken (reg : List (String × Val)) :
    ∀ (refs : List RefEntry) (acc : RefResult),
    (refLoop reg refs acc).broken_references
      = acc.broken_references ++ refs.filter fun r => (validateSingleReference reg r).broken := by
  intro refs
  induction refs with
  | nil => intro acc; simp [refLoop]
  | cons r rest ih =>
    intro acc
    rcases hcv : (validateSingleReference reg r).valid <;>
      rcases hcb : (validateSingleReference reg r).broken <;>
        rcases hct : (validateSingleReference reg r).target_exists <;>
          simp [refLoop, ih, hcv, hcb, hct, List.filter_cons]

/-- C7 counterexample: the source marks the reference `com.example/tool`
followed by a single trailing newline as format-valid — the string is
accepted by `_is_valid_reference_format` and the per-reference check
returns valid and not broken — although it lies outside the claim's
grammar as stated (which ends at the last name character): Python `$` in
`re.match` also matches just before one trailing newline. -/
theorem c7_counterexample_trailing_newline :
    isValidReferenceFormat trailingNlRef = true ∧
    (validateSingleReference [] ⟨"configRef", .str trailingNlRef⟩).valid = true ∧
    (validateSingleReference [] ⟨"configRef", .str trailingNlRef⟩).broken = false ∧
    ¬ specReferenceGrammar trailingNlRef := by
  refine ⟨by decide, by decide, by decide, ?_⟩
  intro h
  exact absurd ((grammarRefAccept_iff trailingNlRef).mpr h) (by decide)

/-- C7 (amended): (1) a reference string is accepted by
`_is_valid_reference_format` exactly when it belongs to the grammar
`namespace/artifact-name` or `namespace/artifact-name:X.Y.Z` (lowercase
alphanumerics, dots and hyphens in the namespace; lowercase alphanumerics
and hyphens in the name) under Python `re.match` semantics: the version
parts are runs of Unicode decimal digits (`\d`) and the reference may
carry one trailing newline (`$`); (2) in particular every string of the
claim's grammar as stated is accepted; (3) an accepted string reference is
marked valid and not broken, while every other string is a hard
`Invalid reference format` error marked broken; (4) the broken references
are exactly the extracted references whose check marks them broken,
recorded in `broken_references`. -/
theorem c7_reference_format_amended :
    (∀ s : String, isValidReferenceFormat s = true ↔ specReferenceGrammarPy s) ∧
    (∀ s : String, specReferenceGrammar s → isValidReferenceFormat s = true) ∧
    (∀ (reg : List (String × Val)) (p s : String),
      (isValidReferenceFormat s = true →
        (validateSingleReference reg ⟨p, .str s⟩).valid = true ∧
        (validateSingleReference reg ⟨p, .str s⟩).broken = false) ∧
      (isValidReferenceFormat s = false →
        (validateSingleReference reg ⟨p, .str s⟩).valid = false ∧
        (validateSingleReference reg ⟨p, .str s⟩).broken = true ∧
        s!"Invalid reference format: {s}" ∈ (validateSingleReference reg ⟨p, .str s⟩).errors)) ∧
    (∀ (reg : List (String × Val)) (doc : Val),
      (validateReferences reg doc).broken_references
        = (extractReferences doc "").filter fun r => (validateSingleReference reg r).broken) := by
  refine ⟨refFormatPy_iff, fun s h => (refFormatPy_iff s).mpr (grammar_sub_py s h), ?_, ?_⟩
  · intro reg p s
    constructor
    · intro h
      constructor <;> simp [validateSingleReference, h]
    · intro h
      refine ⟨?_, ?_, ?_⟩ <;> simp [validateSingleReference, h]
  · intro reg doc
    rw [validateReferences, refLoop_broken]
    rfl

/-- C7 witness: a grammar string is accepted, a well-formed reference is
valid and unbroken, a malformed one is broken. -/
theorem c7_reference_format_amended_witness :
    isValidReferenceFormat "com.example/artifact1" = true ∧
    ((validateSingleReference [] ⟨"configRef", .str "com.example/artifact1"⟩).valid = true ∧
     (validateSingleReference [] ⟨"configRef", .str "com.example/artifact1"⟩).broken = false) ∧
    ((validateSingleReference [] ⟨"toolRef", .str "invalid reference"⟩).valid = false ∧
     (validateSingleReference [] ⟨"toolRef", .str "invalid reference"⟩).broken = true) :=
  ⟨c7_reference_format_amended.2.1 "com.example/artifact1"
     ((grammarRefAccept_iff "com.example/artifact1").mp (by decide)),
   (c7_reference_format_amended.2.2.1 [] "configRef" "com.example/artifact1").1 (by decide),
   ⟨((c7_reference_format_amended.2.2.1 [] "toolRef" "invalid reference").2 (by decide)).1,
    ((c7_reference_format_amended.2.2.1 [] "toolRef" "invalid reference").2 (by decide)).2.1⟩⟩

end KeystonVal
